import Mathlib

/-!
# whatsat: chat over Lightning payments

A shallow embedding of `src/cmd_chat.go` (the signed-keysend generation of the
`chat` command): the tagged records attached to a payment, the canonical
payload that is signed, the invoice listener, the dispatcher `sendMessage`
with its status goroutine, the ledger they mutate, and the alias directory
built by `initAliasMaps` and read by `setDest`.

Conventions of the embedding:
* a Go `string` and a Go `[]byte` are both a list of bytes (`Bytes`);
* `int64` and `uint64` values are integers, with the conversions and the
  wrap-around of Go's arithmetic written out (`toInt64`, `toUint64`);
* a Go map is a function into `Option` (a missing key is `none`); the map
  `runningBalance` is only ever read through `m[k]`, which yields `0` for a
  missing key, so it is a function into the integers;
* a pointer that is only assigned and dereferenced (`destination`,
  `recipient`) is an `Option`;
* the global variables of the program are the fields of `ChatState`, and each
  goroutine is a step function on that state; a run-time panic is an explicit
  outcome.
-/

namespace Whatsat

/-! ## Bytes and machine integers -/

abbrev Byte := Fin 256

/-- A Go byte slice, also used for a Go string (a read-only byte sequence). -/
abbrev Bytes := List Byte

/-- Go conversion `int64(x)`: the value modulo `2^64`, read as two's complement. -/
def toInt64 (x : Int) : Int := (x + 2 ^ 63) % 2 ^ 64 - 2 ^ 63

/-- Go conversion `uint64(x)`: the value modulo `2^64`. -/
def toUint64 (x : Int) : Nat := (x % 2 ^ 64).toNat

def minInt64 : Int := -(2 ^ 63)

def maxInt64 : Int := 2 ^ 63 - 1

/-- The values an `int64` variable can hold. -/
def isInt64 (x : Int) : Prop := minInt64 ≤ x ∧ x ≤ maxInt64

instance (x : Int) : Decidable (isInt64 x) := by
  unfold isInt64; exact inferInstance

/-- Errors that the program passes around as Go `error` values. -/
inductive GoError where
  | invalidVertexLength (n : Nat)
  | invalidHex
  | rpc (code : Nat)
  | io (code : Nat)
deriving DecidableEq, Repr

/-- The call `binary.BigEndian.PutUint64(b, v)` on an 8-byte buffer: the buffer afterwards. -/
def PutUint64 (v : Nat) : Bytes :=
  [Fin.ofNat (v / 2 ^ 56), Fin.ofNat (v / 2 ^ 48), Fin.ofNat (v / 2 ^ 40),
   Fin.ofNat (v / 2 ^ 32), Fin.ofNat (v / 2 ^ 24), Fin.ofNat (v / 2 ^ 16),
   Fin.ofNat (v / 2 ^ 8), Fin.ofNat v]

/-- The call `binary.BigEndian.Uint64(b)`: reads the first 8 bytes; `none` is the
index-out-of-range panic of its bounds check `_ = b[7]` on a shorter slice. -/
def Uint64 : Bytes → Option Nat
  | b0 :: b1 :: b2 :: b3 :: b4 :: b5 :: b6 :: b7 :: _ =>
    some (b7.val + b6.val * 2 ^ 8 + b5.val * 2 ^ 16 + b4.val * 2 ^ 24 +
      b3.val * 2 ^ 32 + b2.val * 2 ^ 40 + b1.val * 2 ^ 48 + b0.val * 2 ^ 56)
  | _ => none

/-! ## Identities -/

/-- The type `route.Vertex`, a `[33]byte` array. -/
structure Vertex where
  bytes : Bytes
  size : bytes.length = 33
deriving DecidableEq

/-- Modelled from the spec: `route.NewVertexFromBytes` is not under `src/`; the
spec calls an identity well-formed when it is exactly 33 bytes, anything else
is an error. -/
def NewVertexFromBytes (b : Bytes) : Except GoError Vertex :=
  if h : b.length = 33 then .ok ⟨b, h⟩ else .error (.invalidVertexLength b.length)

/-- The value of one hexadecimal digit, as `encoding/hex` reads it. -/
def fromHexChar (c : Byte) : Option Nat :=
  if 48 ≤ c.val ∧ c.val ≤ 57 then some (c.val - 48)
  else if 97 ≤ c.val ∧ c.val ≤ 102 then some (c.val - 97 + 10)
  else if 65 ≤ c.val ∧ c.val ≤ 70 then some (c.val - 65 + 10)
  else none

/-- The function `hex.DecodeString`: two digits per byte, an error on a non-digit or on an
odd length. -/
def hexDecodeString : Bytes → Except GoError Bytes
  | [] => .ok []
  | [_] => .error .invalidHex
  | a :: b :: rest =>
    match fromHexChar a, fromHexChar b with
    | some x, some y =>
      match hexDecodeString rest with
      | .ok tl => .ok (Fin.ofNat (x * 16 + y) :: tl)
      | .error e => .error e
    | _, _ => .error .invalidHex

/-- Modelled from the spec: `route.NewVertexFromStr` is not under `src/`; the
spec has the input parsed as a hex-encoded identity, that is 66 hexadecimal
digits for the 33 bytes. -/
def NewVertexFromStr (v : Bytes) : Except GoError Vertex :=
  if v.length ≠ 66 then .error (.invalidVertexLength v.length)
  else
    match hexDecodeString v with
    | .error e => .error e
    | .ok vertex => NewVertexFromBytes vertex

/-- The lower-case hexadecimal digit of a value below 16. -/
def hexDigit (n : Nat) : Byte := if n < 10 then Fin.ofNat (48 + n) else Fin.ofNat (87 + n)

/-- The function `hex.EncodeToString`: two lower-case digits per byte. -/
def hexEncodeToString : Bytes → Bytes
  | [] => []
  | x :: rest => hexDigit (x.val / 16) :: hexDigit (x.val % 16) :: hexEncodeToString rest

/-- Modelled from the spec: `route.Vertex.String` is not under `src/`; the spec
speaks of the hex characters of an identity, the hex encoding of its bytes. -/
def Vertex.String (v : Vertex) : Bytes := hexEncodeToString v.bytes

/-! ## Records and the canonical payload -/

def tlvMsgRecord : Nat := 34349334

def tlvSigRecord : Nat := 34349337

def tlvSenderRecord : Nat := 34349339

def tlvTimeRecord : Nat := 34349343

def tlvKeySendRecord : Nat := 5482373484

/-- A non-nil `map[uint64][]byte`. -/
abbrev Records := Nat → Option Bytes

/-- The method `bytes.Buffer.Write`: appends; the returned error is always nil. -/
def bufferWrite (buf p : Bytes) : Bytes × Option GoError := (buf ++ p, none)

def getSignData (sender recipient : Vertex) (timestamp msg : Bytes) :
    Except GoError Bytes :=
  let signData : Bytes := []
  -- Write sender.
  match bufferWrite signData sender.bytes with
  | (_, some err) => .error err
  | (signData, none) =>
  -- Write recipient.
  match bufferWrite signData recipient.bytes with
  | (_, some err) => .error err
  | (signData, none) =>
  -- Write time.
  match bufferWrite signData timestamp with
  | (_, some err) => .error err
  | (signData, none) =>
  -- Write message.
  match bufferWrite signData msg with
  | (_, some err) => .error err
  | (signData, none) => .ok signData

/-! ## External collaborators -/

/-- Modelled from the spec: the enumeration `lnrpc.Invoice_InvoiceState` is
declared outside `src/`; the listener only asks whether the overall state is
"settled". -/
inductive InvoiceState where
  | OPEN | SETTLED | CANCELED | ACCEPTED
deriving DecidableEq, Repr

/-- Modelled from the spec: the enumeration `lnrpc.InvoiceHTLCState` is declared
outside `src/`; the listener only asks whether an HTLC reports a settled
sub-state. -/
inductive InvoiceHTLCState where
  | ACCEPTED | SETTLED | CANCELED
deriving DecidableEq, Repr

/-- Modelled from the spec: the enumeration `routerrpc.PaymentState` is declared
outside `src/`; the spec lists `InFlight | Succeeded | <other-terminal>`. -/
inductive PaymentState where
  | IN_FLIGHT | SUCCEEDED | FAILED_TIMEOUT | FAILED_NO_ROUTE | FAILED_ERROR
  | FAILED_INCORRECT_PAYMENT_DETAILS
deriving DecidableEq, Repr

/-- The fields of `lnrpc.InvoiceHTLC` that the listener reads; `CustomRecords`
is `none` for a nil map. -/
structure InvoiceHTLC where
  State : InvoiceHTLCState
  CustomRecords : Option Records

/-- The fields of `lnrpc.Invoice` that the listener reads. -/
structure Invoice where
  State : InvoiceState
  Htlcs : List InvoiceHTLC
  AmtPaid : Int

/-- The field of `lnrpc.Route` that the status goroutine reads. -/
structure Route where
  TotalFeesMsat : Int
deriving DecidableEq, Repr

/-- One message of the payment status stream; `Route` is a pointer, `none` when nil. -/
structure PaymentStatus where
  State : PaymentState
  Route : Option Route
deriving DecidableEq, Repr

/-- The external signer behind `signrpc.SignerClient`, with the node key
locator fixed: an RPC error, or the answer. -/
structure Signer where
  SignMessage : (msg : Bytes) → Except GoError Bytes
  VerifyMessage : (msg signature pubkey : Bytes) → Except GoError Bool

/-! ## The ledger -/

inductive messageState where
  | statePending | stateDelivered | stateFailed
deriving DecidableEq, Repr

/-- A line of the transcript. `timestamp` is `none` for the zero `time.Time`
and `some n` for `time.Unix(0, n)`. -/
structure chatLine where
  text : Bytes
  sender : Vertex
  recipient : Option Vertex := none
  state : messageState := .statePending
  fee : Nat := 0
  timestamp : Option Int := none
deriving DecidableEq

/-- The package-level variables of the program. -/
structure ChatState where
  msgLines : List chatLine
  destination : Option Vertex
  runningBalance : Vertex → Int
  keyToAlias : Vertex → Option Bytes
  aliasToKey : Bytes → Option Vertex
  self : Vertex

/-- What running a piece of a goroutine on the shared state leads to. -/
inductive Outcome where
  /-- ran to its end (or to `continue`), leaving this state -/
  | ok (σ : ChatState)
  /-- an error was handed to the caller or to the GUI loop and the goroutine returned -/
  | failed (σ : ChatState) (err : GoError)
  /-- a run-time panic (nil dereference, index out of range) -/
  | panic

/-- Assignment `m[k] = v` on a map read through `m[k]`. -/
def setBalance (m : Vertex → Int) (k : Vertex) (v : Int) : Vertex → Int :=
  fun k' => if k' = k then v else m k'

def setDest (σ : ChatState) (destStr : Bytes) : ChatState :=
  let σ :=
    match NewVertexFromStr destStr with
    | .ok dest => { σ with destination := some dest }
    | .error _ => σ
  match σ.aliasToKey destStr with
  | some dest => { σ with destination := some dest }
  | none => σ

/-- The closure `addMsg`: appends and returns the index of the new line. -/
def addMsg (σ : ChatState) (line : chatLine) : ChatState × Nat :=
  let σ := { σ with msgLines := σ.msgLines ++ [line] }
  (σ, σ.msgLines.length - 1)

/-! ## The invoice listener -/

/-- The records of the first HTLC that reports a settled sub-state (the loop
over `invoice.Htlcs`); `none` when there is none or its map is nil. -/
def inspectedRecords : List InvoiceHTLC → Option Records
  | [] => none
  | htlc :: rest =>
    if htlc.State = .SETTLED then htlc.CustomRecords else inspectedRecords rest

/-- What the listener has in hand when it turns to the signer. -/
structure ChatPayload where
  msg : Bytes
  signature : Bytes
  timestampBytes : Bytes
  timestamp : Int
  sender : Vertex
deriving DecidableEq

/-- The result of the record extraction of the listener. -/
inductive Extract where
  /-- a `continue`: not a chat payload -/
  | skip
  /-- the panic of `byteOrder.Uint64` on a timestamp record shorter than 8 bytes -/
  | panic
  | chat (p : ChatPayload)
deriving DecidableEq

/-- The record extraction of the listener, from the lookup of `tlvMsgRecord`
down to `route.NewVertexFromBytes`. -/
def extractRecords (customRecords : Records) : Extract :=
  match customRecords tlvMsgRecord with
  | none => .skip
  | some msg =>
  match customRecords tlvSigRecord with
  | none => .skip
  | some signature =>
  match customRecords tlvTimeRecord with
  | none => .skip
  | some timestampBytes =>
  match Uint64 timestampBytes with
  | none => .panic
  | some u =>
  let timestamp := toInt64 u
  match customRecords tlvSenderRecord with
  | none => .skip
  | some senderBytes =>
  match NewVertexFromBytes senderBytes with
  | .error _ => .skip -- Invalid sender pubkey
  | .ok sender =>
    .chat { msg := msg, signature := signature, timestampBytes := timestampBytes,
            timestamp := timestamp, sender := sender }

/-- The part of the listener after a successful verification: select the
sender when no destination is set, append the line, credit the amount. -/
def acceptChat (σ : ChatState) (p : ChatPayload) (AmtPaid : Int) : Outcome :=
  let σ := if σ.destination = none then { σ with destination := some p.sender } else σ
  let σ := (addMsg σ { sender := p.sender, text := p.msg, timestamp := some p.timestamp }).1
  let amt := AmtPaid
  match σ.destination with
  | none => .panic
  | some dest =>
    let balance := toInt64 (σ.runningBalance dest + amt)
    .ok { σ with runningBalance := setBalance σ.runningBalance dest balance }

/-- One iteration of the listener loop on an invoice that `stream.Recv`
returned. -/
def listenerStep (signClient : Signer) (σ : ChatState) (invoice : Invoice) : Outcome :=
  if invoice.State ≠ .SETTLED then .ok σ
  else
    match inspectedRecords invoice.Htlcs with
    | none => .ok σ
    | some customRecords =>
      match extractRecords customRecords with
      | .skip => .ok σ
      | .panic => .panic
      | .chat p =>
        match getSignData p.sender σ.self p.timestampBytes p.msg with
        | .error err => .failed σ err
        | .ok signData =>
          match signClient.VerifyMessage signData p.signature p.sender.bytes with
          | .error err => .failed σ err
          | .ok valid =>
            if !valid then .ok σ
            else acceptChat σ p invoice.AmtPaid

/-- The request that one iteration of the listener sends to `VerifyMessage`:
message, signature and public key; `none` when the iteration does not get
that far. -/
def listenerVerifyCall (σ : ChatState) (invoice : Invoice) : Option (Bytes × Bytes × Bytes) :=
  if invoice.State ≠ .SETTLED then none
  else
    match inspectedRecords invoice.Htlcs with
    | none => none
    | some customRecords =>
      match extractRecords customRecords with
      | .chat p =>
        match getSignData p.sender σ.self p.timestampBytes p.msg with
        | .error _ => none
        | .ok signData => some (signData, p.signature, p.sender.bytes)
      | _ => none

/-! ## The dispatcher -/

/-- The flag read `chatMsgAmt := int64(ctx.Uint64("amt_msat"))`. -/
def chatMsgAmtOf (amt_msat : Nat) : Int := toInt64 amt_msat

/-- The amount of the next payment: the running balance of the destination,
raised to `chatMsgAmt` and capped at `10 * chatMsgAmt` (an `int64` product). -/
def payAmtFor (chatMsgAmt balance : Int) : Int :=
  let payAmt := balance
  let payAmt := if payAmt < chatMsgAmt then chatMsgAmt else payAmt
  let payAmt := if payAmt > toInt64 (10 * chatMsgAmt) then toInt64 (10 * chatMsgAmt) else payAmt
  payAmt

/-- The buffer `timeBuffer` after `byteOrder.PutUint64(timeBuffer[:], uint64(timestamp))`. -/
def timeBufferOf (timestamp : Int) : Bytes := PutUint64 (toUint64 timestamp)

/-- The map literal `customRecords` of `sendMessage`. -/
def customRecordsOf (newMsg : Bytes) (self : Vertex) (timeBuffer signature preimage : Bytes) :
    Records :=
  fun tag =>
    if tag = tlvMsgRecord then some newMsg
    else if tag = tlvSenderRecord then some self.bytes
    else if tag = tlvTimeRecord then some timeBuffer
    else if tag = tlvSigRecord then some signature
    else if tag = tlvKeySendRecord then some preimage
    else none

structure SendPaymentRequest where
  PaymentHash : Bytes
  AmtMsat : Int
  FinalCltvDelta : Int
  Dest : Bytes
  FeeLimitMsat : Int
  TimeoutSeconds : Int
  DestCustomRecords : Records

/-- What `sendMessage` takes from outside the program for one send. -/
structure SendEnv where
  /-- the preimage filled by `rand.Read`, or its error -/
  randRead : Except GoError Bytes
  /-- the function `preimage.Hash()` -/
  Hash : Bytes → Bytes
  /-- the value `time.Now().UnixNano()` -/
  UnixNano : Int

/-- What the status goroutine captures from `sendMessage`. -/
structure StatusTask where
  msgIdx : Nat
  payAmt : Int
  req : SendPaymentRequest

inductive SendResult where
  /-- returned without starting a payment, with the error if any -/
  | returned (σ : ChatState) (err : Option GoError)
  /-- started the status goroutine and returned nil -/
  | dispatched (σ : ChatState) (task : StatusTask)
  | panic

/-- The handler `sendMessage` up to the `go` statement. The calls into the
terminal view (`v.Clear`, `v.SetCursor`, `v.SetOrigin`, `updateView`) do not
touch the ledger and are taken to succeed. -/
def sendMessage (chatMsgAmt : Int) (signClient : Signer) (env : SendEnv) (σ : ChatState)
    (BufferLines : List Bytes) : SendResult :=
  match BufferLines with
  | [] => .returned σ none
  | newMsg :: _ =>
  match newMsg with
  | [] => .panic -- newMsg[0] on the empty string
  | c :: destHex =>
  if c = 47 then .returned (setDest σ destHex) none
  else
  match σ.destination with
  | none => .returned σ none
  | some d =>
  let (σ, msgIdx) := addMsg σ { sender := σ.self, text := newMsg, recipient := some d }
  let payAmt := payAmtFor chatMsgAmt (σ.runningBalance d)
  match env.randRead with
  | .error err => .returned σ (some err)
  | .ok preimage =>
  let hash := env.Hash preimage
  -- Message sending time stamp
  let timestamp := env.UnixNano
  let timeBuffer := timeBufferOf timestamp
  -- Sign all data.
  match getSignData σ.self d timeBuffer newMsg with
  | .error err => .returned σ (some err)
  | .ok signData =>
  match signClient.SignMessage signData with
  | .error err => .returned σ (some err)
  | .ok signature =>
  let customRecords := customRecordsOf newMsg σ.self timeBuffer signature preimage
  let req : SendPaymentRequest :=
    { PaymentHash := hash
      AmtMsat := payAmt
      FinalCltvDelta := 40
      Dest := d.bytes
      FeeLimitMsat := toInt64 (chatMsgAmt * 10)
      TimeoutSeconds := 30
      DestCustomRecords := customRecords }
  .dispatched σ { msgIdx := msgIdx, payAmt := payAmt, req := req }

/-- The assignment `msgLines[msgIdx].fee = fee`; `none` when the index is out of range. -/
def setFee (msgLines : List chatLine) (msgIdx fee : Nat) : Option (List chatLine) :=
  match msgLines[msgIdx]? with
  | none => none
  | some line => some (msgLines.set msgIdx { line with fee := fee })

/-- The assignment `msgLines[msgIdx].state = state`; `none` when the index is out of range. -/
def setState (msgLines : List chatLine) (msgIdx : Nat) (state : messageState) :
    Option (List chatLine) :=
  match msgLines[msgIdx]? with
  | none => none
  | some line => some (msgLines.set msgIdx { line with state := state })

/-- The `switch status.State` of the status goroutine, on one received status.
Each `break` in it leaves the `switch`, so the `for` loop goes on to the next
`stream.Recv`. -/
def statusStep (task : StatusTask) (σ : ChatState) (status : PaymentStatus) : Outcome :=
  match status.State with
  | .SUCCEEDED =>
    match status.Route with
    | none => .panic
    | some route =>
    match setFee σ.msgLines task.msgIdx (toUint64 route.TotalFeesMsat) with
    | none => .panic
    | some lines =>
    let σ := { σ with msgLines := lines }
    match σ.destination with
    | none => .panic
    | some dest =>
    let balance := toInt64 (σ.runningBalance dest - task.payAmt)
    let σ := { σ with runningBalance := setBalance σ.runningBalance dest balance }
    match setState σ.msgLines task.msgIdx .stateDelivered with
    | none => .panic
    | some lines => .ok { σ with msgLines := lines }
  | .IN_FLIGHT => .ok σ
  | _ =>
    match setState σ.msgLines task.msgIdx .stateFailed with
    | none => .panic
    | some lines => .ok { σ with msgLines := lines }

/-- The `for` loop of the status goroutine over the statuses that
`stream.Recv` returns before it returns an error, where the loop breaks. -/
def statusLoop (task : StatusTask) (σ : ChatState) : List PaymentStatus → Outcome
  | [] => .ok σ
  | status :: rest =>
    match statusStep task σ status with
    | .ok σ => statusLoop task σ rest
    | .failed σ err => .failed σ err
    | .panic => .panic

/-- The status goroutine: `client.SendPayment` either fails, which is reported
to the GUI loop, or opens the stream that the loop reads. -/
def statusGoroutine (task : StatusTask) (σ : ChatState)
    (stream : Except GoError (List PaymentStatus)) : Outcome :=
  match stream with
  | .error err => .failed σ err
  | .ok statuses => statusLoop task σ statuses

/-! ## The alias directory -/

/-- The fields of `lnrpc.LightningNode` that `initAliasMaps` reads, both Go strings. -/
structure LightningNode where
  PubKey : Bytes
  Alias : Bytes
deriving DecidableEq

/-- Assignment `aliasToKey[alias] = key`. -/
def setKey (m : Bytes → Option Vertex) (aliasStr : Bytes) (key : Vertex) : Bytes → Option Vertex :=
  fun a => if a = aliasStr then some key else m a

/-- Assignment `keyToAlias[key] = alias`. -/
def setAlias (m : Vertex → Option Bytes) (key : Vertex) (aliasStr : Bytes) : Vertex → Option Bytes :=
  fun k => if k = key then some aliasStr else m k

/-- The first loop of `initAliasMaps`: `aliasCount[alias]++` for every node,
starting from the empty map, read through `aliasCount[alias]`. -/
def countAliases (nodes : List LightningNode) : Bytes → Nat :=
  nodes.foldl
    (fun aliasCount node => fun a => if a = node.Alias then aliasCount a + 1 else aliasCount a)
    (fun _ => 0)

/-- The name under which the second loop enters a node: its alias, followed by
`-` and `node.PubKey[:6]` when the alias was counted more than once. -/
def displayAlias (aliasCount : Bytes → Nat) (node : LightningNode) : Bytes :=
  let aliasStr := node.Alias
  if aliasCount aliasStr > 1 then aliasStr ++ ([45] ++ node.PubKey.take 6) else aliasStr

/-- The second loop of `initAliasMaps` over the nodes: it returns at the first
public key that does not parse, with the entries made so far left in the maps. -/
def aliasLoop (aliasCount : Bytes → Nat) : List LightningNode → ChatState → Outcome
  | [], σ => .ok σ
  | node :: rest, σ =>
    match NewVertexFromStr node.PubKey with
    | .error err => .failed σ err
    | .ok key =>
      let aliasStr := displayAlias aliasCount node
      let σ := { σ with aliasToKey := setKey σ.aliasToKey aliasStr key }
      let σ := { σ with aliasToKey := setKey σ.aliasToKey key.String key }
      let σ := { σ with keyToAlias := setAlias σ.keyToAlias key aliasStr }
      aliasLoop aliasCount rest σ

/-- One round of the second loop: the state after the three assignments. -/
def enterNode (aliasCount : Bytes → Nat) (node : LightningNode) (key : Vertex)
    (σ : ChatState) : ChatState :=
  { σ with
    aliasToKey := setKey (setKey σ.aliasToKey (displayAlias aliasCount node) key) key.String key
    keyToAlias := setAlias σ.keyToAlias key (displayAlias aliasCount node) }

/-- The zero value of `route.Vertex`. -/
def zeroVertex : Vertex := ⟨List.replicate 33 0, List.length_replicate 33 0⟩

/-- The function `initAliasMaps`, given what `DescribeGraph` returns (the nodes
of the graph, or an error) and what `GetInfo` returns (the identity string of
the local node, or an error). -/
def initAliasMaps (DescribeGraph : Except GoError (List LightningNode))
    (GetInfo : Except GoError Bytes) (σ : ChatState) : Outcome :=
  match DescribeGraph with
  | .error err => .failed σ err
  | .ok nodes =>
    match aliasLoop (countAliases nodes) nodes σ with
    | .panic => .panic
    | .failed σ err => .failed σ err
    | .ok σ =>
      match GetInfo with
      | .error err => .failed σ err
      | .ok IdentityPubkey =>
        match NewVertexFromStr IdentityPubkey with
        | .error err => .failed { σ with self := zeroVertex } err
        | .ok self => .ok { σ with self := self }

/-- The identity of a node of the graph, when its public key parses. -/
def nodeKey (node : LightningNode) : Option Vertex :=
  match NewVertexFromStr node.PubKey with
  | .ok key => some key
  | .error _ => none

/-! ## Sample values -/

/-- The identity whose 33 bytes all equal `b`. -/
def sampleVertex (b : Byte) : Vertex := ⟨List.replicate 33 b, List.length_replicate 33 b⟩

/-- A ledger with no lines, no destination, zero balances and empty alias maps. -/
def emptyState (self : Vertex) : ChatState :=
  { msgLines := []
    destination := none
    runningBalance := fun _ => 0
    keyToAlias := fun _ => none
    aliasToKey := fun _ => none
    self := self }

/-- A signer that signs with the empty signature and answers every
verification with `valid`. -/
def constSigner (valid : Bool) : Signer :=
  { SignMessage := fun _ => .ok []
    VerifyMessage := fun _ _ _ => .ok valid }

/-- The records of a two-byte message from `sampleVertex 1`, stamped `1000`,
with an empty signature and proof key. -/
def sampleRecords : Records :=
  customRecordsOf [104, 105] (sampleVertex 1) (timeBufferOf 1000) [] []

/-- A settled invoice with one settled HTLC carrying `customRecords`. -/
def settledInvoice (customRecords : Records) (AmtPaid : Int) : Invoice :=
  { State := .SETTLED
    Htlcs := [{ State := .SETTLED, CustomRecords := some customRecords }]
    AmtPaid := AmtPaid }

/-- A ledger of `sampleVertex 1` with `sampleVertex 2` selected as destination. -/
def sampleSendState : ChatState :=
  { emptyState (sampleVertex 1) with destination := some (sampleVertex 2) }

/-- The ledger `sampleSendState` with every running balance set to `balance`. -/
def sampleStateWithBalance (balance : Int) : ChatState :=
  { sampleSendState with runningBalance := fun _ => balance }

/-- An environment with an empty preimage, the identity as hash and the clock at `1000`. -/
def sampleEnv : SendEnv :=
  { randRead := .ok []
    Hash := fun preimage => preimage
    UnixNano := 1000 }

/-- The ledger after `sampleSendState` has sent the two-byte message `[104, 105]`. -/
def sampleDispatched : ChatState :=
  { sampleSendState with
    msgLines := [{ sender := sampleVertex 1, text := [104, 105],
                   recipient := some (sampleVertex 2) }] }

/-- The status task of that send under `constSigner`, with `chatMsgAmt = 1000`. -/
def sampleTask : StatusTask :=
  { msgIdx := 0
    payAmt := 1000
    req :=
      { PaymentHash := []
        AmtMsat := 1000
        FinalCltvDelta := 40
        Dest := (sampleVertex 2).bytes
        FeeLimitMsat := 10000
        TimeoutSeconds := 30
        DestCustomRecords :=
          customRecordsOf [104, 105] (sampleVertex 1) (timeBufferOf 1000) [] [] } }

/-- A `SUCCEEDED` status whose route reports `fees`. -/
def succeededStatus (fees : Int) : PaymentStatus :=
  { State := .SUCCEEDED, Route := some { TotalFeesMsat := fees } }

/-- A `FAILED_TIMEOUT` status. -/
def failedStatus : PaymentStatus := { State := .FAILED_TIMEOUT, Route := none }

/-- The input line `/` followed by the hex identity of `v`, which selects `v`. -/
def destCommand (v : Vertex) : Bytes := 47 :: v.String

/-- The records of `sampleRecords` with the timestamp record replaced by `timestampBytes`. -/
def recordsWithTime (timestampBytes : Bytes) : Records :=
  customRecordsOf [104, 105] (sampleVertex 1) timestampBytes [] []

/-- The identity that begins with the bytes `a`, `b`, `c` and goes on with 30 bytes `fill`. -/
def prefixedVertex (a b c fill : Byte) : Vertex :=
  ⟨a :: b :: c :: List.replicate 30 fill, by simp⟩

/-- The node of the graph with identity `key` and alias `aliasStr`, its public
key in lower-case hex as `DescribeGraph` gives it. -/
def nodeOf (key : Vertex) (aliasStr : Bytes) : LightningNode :=
  { PubKey := key.String, Alias := aliasStr }

/-- The string `Bob`. -/
def bob : Bytes := [66, 111, 98]

/-- The ledger at program start: nothing in it, `self` the zero identity. -/
def startState : ChatState := emptyState zeroVertex

/-- The ledger after `initAliasMaps` has run at program start on a graph with
these nodes, the local node being `sampleVertex 9`; the start ledger when it fails. -/
def sampleDirectory (nodes : List LightningNode) : ChatState :=
  match initAliasMaps (.ok nodes) (.ok (sampleVertex 9).String) startState with
  | .ok σ => σ
  | _ => startState

/-- Two nodes named `Bob` whose identities begin `aabbcc` and `bbccdd`. -/
def bobNodes : List LightningNode :=
  [nodeOf (prefixedVertex 0xaa 0xbb 0xcc 1) bob, nodeOf (prefixedVertex 0xbb 0xcc 0xdd 2) bob]

/-- Two nodes that both publish the hex identity of the first as their alias. -/
def hexAliasNodes : List LightningNode :=
  [nodeOf (sampleVertex 1) (sampleVertex 1).String,
   nodeOf (sampleVertex 2) (sampleVertex 1).String]

/-- Two nodes named `Bob` with distinct identities that both begin `aabbcc`. -/
def sharedPrefixNodes : List LightningNode :=
  [nodeOf (prefixedVertex 0xaa 0xbb 0xcc 1) bob, nodeOf (prefixedVertex 0xaa 0xbb 0xcc 2) bob]

/-- A node that publishes the hex identity of `sampleVertex 2` as its alias,
followed by the node `sampleVertex 2` itself, named `Bob`. -/
def hexNamedNodes : List LightningNode :=
  [nodeOf (sampleVertex 1) (sampleVertex 2).String, nodeOf (sampleVertex 2) bob]

/-- The node `sampleVertex 2`, named `Bob`, followed by a node that publishes
the hex identity of `sampleVertex 2` as its alias. -/
def hijackNodes : List LightningNode :=
  [nodeOf (sampleVertex 2) bob, nodeOf (sampleVertex 1) (sampleVertex 2).String]


/-! ## Basic facts -/

theorem getSignData_eq (sender recipient : Vertex) (timestamp msg : Bytes) :
    getSignData sender recipient timestamp msg
      = .ok (sender.bytes ++ recipient.bytes ++ timestamp ++ msg) := by
  simp [getSignData, bufferWrite]

theorem Uint64_PutUint64 (v : Nat) (hv : v < 2 ^ 64) : Uint64 (PutUint64 v) = some v := by
  simp only [PutUint64, Uint64, Fin.ofNat, Option.some.injEq]
  omega

theorem length_PutUint64 (v : Nat) : (PutUint64 v).length = 8 := rfl

theorem toUint64_lt (t : Int) : toUint64 t < 2 ^ 64 := by
  unfold toUint64
  omega

theorem toInt64_toUint64 (t : Int) (ht : isInt64 t) : toInt64 (toUint64 t) = t := by
  unfold isInt64 minInt64 maxInt64 at ht
  unfold toInt64 toUint64
  omega

theorem toInt64_of_isInt64 (x : Int) (hx : isInt64 x) : toInt64 x = x := by
  unfold isInt64 minInt64 maxInt64 at hx
  unfold toInt64
  omega

theorem NewVertexFromBytes_bytes (v : Vertex) : NewVertexFromBytes v.bytes = .ok v := by
  simp [NewVertexFromBytes, v.size]

theorem extractRecords_customRecordsOf (m : Bytes) (S : Vertex) (t : Int)
    (signature preimage : Bytes) :
    extractRecords (customRecordsOf m S (timeBufferOf t) signature preimage)
      = .chat { msg := m, signature := signature, timestampBytes := timeBufferOf t,
                timestamp := toInt64 (toUint64 t), sender := S } := by
  have h := Uint64_PutUint64 (toUint64 t) (toUint64_lt t)
  simp [extractRecords, customRecordsOf, timeBufferOf, tlvMsgRecord, tlvSigRecord,
    tlvSenderRecord, tlvTimeRecord, tlvKeySendRecord, h, NewVertexFromBytes_bytes]

/-- With the four records present and a 33-byte sender, the listener reaches
the signer exactly when the timestamp record holds at least 8 bytes. -/
theorem listenerVerifyCall_isSome_iff (σ : ChatState) (invoice : Invoice)
    (customRecords : Records) (msg signature timestampBytes senderBytes : Bytes)
    (hsettled : invoice.State = .SETTLED)
    (hrecs : inspectedRecords invoice.Htlcs = some customRecords)
    (hmsg : customRecords tlvMsgRecord = some msg)
    (hsig : customRecords tlvSigRecord = some signature)
    (htime : customRecords tlvTimeRecord = some timestampBytes)
    (hsender : customRecords tlvSenderRecord = some senderBytes)
    (hlen : senderBytes.length = 33) :
    (listenerVerifyCall σ invoice).isSome ↔ 8 ≤ timestampBytes.length := by
  have hu : (Uint64 timestampBytes).isSome ↔ 8 ≤ timestampBytes.length := by
    match timestampBytes with
    | [] | [_] | [_, _] | [_, _, _] | [_, _, _, _] | [_, _, _, _, _]
    | [_, _, _, _, _, _] | [_, _, _, _, _, _, _] => simp [Uint64]
    | _ :: _ :: _ :: _ :: _ :: _ :: _ :: _ :: _ => simp [Uint64]
  rw [← hu]
  simp only [listenerVerifyCall, hsettled, hrecs, extractRecords, hmsg, hsig, htime, hsender,
    NewVertexFromBytes, hlen, getSignData_eq]
  cases hts : Uint64 timestampBytes <;> simp

/-- What a send that reaches the `go` statement has done: the line is appended
as the last one, in state pending, and the amount, the destination and the
index are the ones captured for the status goroutine. -/
theorem sendMessage_dispatched (chatMsgAmt : Int) (signClient : Signer) (env : SendEnv)
    (σ σ₁ : ChatState) (BufferLines : List Bytes) (task : StatusTask) (D : Vertex)
    (hD : σ.destination = some D)
    (hsend : sendMessage chatMsgAmt signClient env σ BufferLines = .dispatched σ₁ task) :
    ∃ newMsg : Bytes, BufferLines.head? = some newMsg ∧
      σ₁ = { σ with msgLines := σ.msgLines ++
              [{ sender := σ.self, text := newMsg, recipient := some D }] } ∧
      task.msgIdx = σ.msgLines.length ∧
      task.payAmt = payAmtFor chatMsgAmt (σ.runningBalance D) ∧
      task.req.AmtMsat = task.payAmt ∧ task.req.Dest = D.bytes := by
  cases BufferLines with
  | nil => simp [sendMessage] at hsend
  | cons newMsg rest =>
    cases newMsg with
    | nil => simp [sendMessage] at hsend
    | cons c destHex =>
      refine ⟨c :: destHex, rfl, ?_⟩
      by_cases hc : c = 47
      · simp [sendMessage, hc] at hsend
      · cases hr : env.randRead with
        | error e => simp [sendMessage, hc, hD, hr] at hsend
        | ok preimage =>
          cases hs : signClient.SignMessage
              (σ.self.bytes ++ D.bytes ++ timeBufferOf env.UnixNano ++ c :: destHex) with
          | error e =>
            simp only [List.append_assoc] at hs
            simp [sendMessage, hc, hD, hr, addMsg, getSignData_eq, hs] at hsend
          | ok signature =>
            simp only [List.append_assoc] at hs
            simp [sendMessage, hc, hD, hr, addMsg, getSignData_eq, hs] at hsend
            obtain ⟨h1, h2⟩ := hsend
            subst h1 h2
            simp [hD]

theorem statusLoop_inflight_append (task : StatusTask) (σ : ChatState)
    (inflight rest : List PaymentStatus) (hin : ∀ s ∈ inflight, s.State = .IN_FLIGHT) :
    statusLoop task σ (inflight ++ rest) = statusLoop task σ rest := by
  induction inflight with
  | nil => rfl
  | cons s tl ih =>
    have hs : s.State = .IN_FLIGHT := hin s (List.mem_cons_self s tl)
    have htl : ∀ x ∈ tl, x.State = .IN_FLIGHT := fun x hx => hin x (List.mem_cons_of_mem s hx)
    simp only [List.cons_append, statusLoop, statusStep, hs]
    exact ih htl

theorem setFee_last (lines : List chatLine) (line : chatLine) (fee : Nat) :
    setFee (lines ++ [line]) lines.length fee = some (lines ++ [{ line with fee := fee }]) := by
  simp [setFee]

theorem setState_last (lines : List chatLine) (line : chatLine) (state : messageState) :
    setState (lines ++ [line]) lines.length state
      = some (lines ++ [{ line with state := state }]) := by
  simp [setState]

/-- The record sets that the extraction does classify as not a chat payload: a
missing message, signature or timestamp record, or, behind a timestamp record
of at least 8 bytes, a sender record that is missing or not 33 bytes long. -/
theorem extractRecords_skip (customRecords : Records)
    (h : customRecords tlvMsgRecord = none ∨ customRecords tlvSigRecord = none ∨
      customRecords tlvTimeRecord = none ∨
      ∃ timestampBytes, customRecords tlvTimeRecord = some timestampBytes ∧
        8 ≤ timestampBytes.length ∧
        (customRecords tlvSenderRecord = none ∨
          ∃ senderBytes, customRecords tlvSenderRecord = some senderBytes ∧
            senderBytes.length ≠ 33)) :
    extractRecords customRecords = .skip := by
  unfold extractRecords
  cases hmsg : customRecords tlvMsgRecord with
  | none => rfl
  | some msg =>
    cases hsig : customRecords tlvSigRecord with
    | none => rfl
    | some signature =>
      cases htime : customRecords tlvTimeRecord with
      | none => rfl
      | some timestampBytes =>
        rcases h with h | h | h | ⟨ts, hts, hlen, hs⟩
        · simp [hmsg] at h
        · simp [hsig] at h
        · simp [htime] at h
        · rw [htime] at hts
          cases hts
          have hu : ∃ u, Uint64 timestampBytes = some u := by
            match timestampBytes, hlen with
            | _ :: _ :: _ :: _ :: _ :: _ :: _ :: _ :: _, _ => exact ⟨_, rfl⟩
          obtain ⟨u, hu⟩ := hu
          rcases hs with hs | ⟨sb, hs, hsb⟩
          · simp [hu, hs]
          · simp [hu, hs, NewVertexFromBytes, hsb]

/-- The canonical payload determines its four fields once the length of the
timestamp field is fixed, as it is for the 8-byte `timeBuffer` of the sender. -/
theorem getSignData_injective_of_length (s₁ r₁ s₂ r₂ : Vertex) (t₁ m₁ t₂ m₂ : Bytes)
    (hlen : t₁.length = t₂.length)
    (h : getSignData s₁ r₁ t₁ m₁ = getSignData s₂ r₂ t₂ m₂) :
    s₁ = s₂ ∧ r₁ = r₂ ∧ t₁ = t₂ ∧ m₁ = m₂ := by
  simp only [getSignData_eq, Except.ok.injEq, List.append_assoc] at h
  obtain ⟨hs, h⟩ := List.append_inj h (by rw [s₁.size, s₂.size])
  obtain ⟨hr, h⟩ := List.append_inj h (by rw [r₁.size, r₂.size])
  obtain ⟨ht, hm⟩ := List.append_inj h hlen
  refine ⟨?_, ?_, ht, hm⟩
  · cases s₁; cases s₂; simp_all
  · cases r₁; cases r₂; simp_all

/-- When `sendMessage` starts a payment, and what it then returns: the line is
not a `/` command, a destination is selected, `rand.Read` fills the preimage
and the signer signs the payload of sender, destination, time buffer and text. -/
theorem sendMessage_eq_dispatched (chatMsgAmt : Int) (signClient : Signer) (env : SendEnv)
    (σ : ChatState) (c : Byte) (tl : Bytes) (rest : List Bytes) (D : Vertex)
    (preimage signature : Bytes)
    (hc : c ≠ 47) (hD : σ.destination = some D) (hr : env.randRead = .ok preimage)
    (hs : signClient.SignMessage
        (σ.self.bytes ++ D.bytes ++ timeBufferOf env.UnixNano ++ c :: tl) = .ok signature) :
    sendMessage chatMsgAmt signClient env σ ((c :: tl) :: rest)
      = .dispatched
          { σ with msgLines := σ.msgLines ++
              [{ sender := σ.self, text := c :: tl, recipient := some D }] }
          { msgIdx := σ.msgLines.length
            payAmt := payAmtFor chatMsgAmt (σ.runningBalance D)
            req :=
              { PaymentHash := env.Hash preimage
                AmtMsat := payAmtFor chatMsgAmt (σ.runningBalance D)
                FinalCltvDelta := 40
                Dest := D.bytes
                FeeLimitMsat := toInt64 (chatMsgAmt * 10)
                TimeoutSeconds := 30
                DestCustomRecords :=
                  customRecordsOf (c :: tl) σ.self (timeBufferOf env.UnixNano) signature
                    preimage } } := by
  simp only [List.append_assoc] at hs
  simp [sendMessage, hc, hD, hr, addMsg, getSignData_eq, hs]

/-- The listener step on a settled invoice whose inspected records are the ones
a dispatcher builds: it asks the signer about the payload of sender, own
identity, time buffer and text, and goes by the answer. -/
theorem listenerStep_customRecordsOf (signClient : Signer) (σ : ChatState) (m : Bytes)
    (S : Vertex) (t : Int) (signature preimage : Bytes) (AmtPaid : Int) :
    listenerStep signClient σ
        (settledInvoice (customRecordsOf m S (timeBufferOf t) signature preimage) AmtPaid)
      = match signClient.VerifyMessage
            (S.bytes ++ σ.self.bytes ++ timeBufferOf t ++ m) signature S.bytes with
        | .error err => .failed σ err
        | .ok valid =>
          if !valid then .ok σ
          else acceptChat σ
            { msg := m, signature := signature, timestampBytes := timeBufferOf t,
              timestamp := toInt64 (toUint64 t), sender := S } AmtPaid := by
  have h := extractRecords_customRecordsOf m S t signature preimage
  simp only [listenerStep, settledInvoice, inspectedRecords, getSignData_eq, ne_eq,
    not_true_eq_false, ↓reduceIte]
  rw [h]

/-! ### Hex strings -/

theorem fromHexChar_hexDigit (d : Fin 16) : fromHexChar (hexDigit d.val) = some d.val := by
  revert d
  decide

theorem hexDecodeString_hexEncodeToString (b : Bytes) :
    hexDecodeString (hexEncodeToString b) = .ok b := by
  induction b with
  | nil => rfl
  | cons x rest ih =>
    have h1 := fromHexChar_hexDigit ⟨x.val / 16, by omega⟩
    have h2 := fromHexChar_hexDigit ⟨x.val % 16, by omega⟩
    simp only at h1 h2
    simp only [hexEncodeToString, hexDecodeString, h1, h2, ih]
    have hx : (Fin.ofNat (x.val / 16 * 16 + x.val % 16) : Byte) = x := by
      apply Fin.ext
      simp only [Fin.ofNat]
      omega
    rw [hx]

theorem length_hexEncodeToString (b : Bytes) : (hexEncodeToString b).length = 2 * b.length := by
  induction b with
  | nil => rfl
  | cons x rest ih => simp only [hexEncodeToString, List.length_cons, ih]; omega

theorem length_String (v : Vertex) : v.String.length = 66 := by
  simp [Vertex.String, length_hexEncodeToString, v.size]

/-- Parsing the hex string of an identity gives the identity back. -/
theorem NewVertexFromStr_String (v : Vertex) : NewVertexFromStr v.String = .ok v := by
  have hl := length_String v
  simp only [NewVertexFromStr, hl, ne_eq, not_true_eq_false, ↓reduceIte]
  simp only [Vertex.String, hexDecodeString_hexEncodeToString, NewVertexFromBytes_bytes]

/-! ### The alias directory -/

theorem countAliases_eq (nodes : List LightningNode) (a : Bytes) :
    countAliases nodes a = nodes.countP (fun node => node.Alias = a) := by
  have key : ∀ (l : List LightningNode) (f : Bytes → Nat),
      l.foldl (fun aliasCount node => fun a' =>
          if a' = node.Alias then aliasCount a' + 1 else aliasCount a') f a
        = f a + l.countP (fun node => node.Alias = a) := by
    intro l
    induction l with
    | nil => intro f; simp
    | cons hd tl ih =>
      intro f
      rw [List.foldl_cons, ih]
      by_cases h : a = hd.Alias
      · simp [List.countP_cons, h]; omega
      · have h' : ¬ hd.Alias = a := fun e => h e.symm
        simp [List.countP_cons, h, h']
  simpa [countAliases] using key nodes (fun _ => 0)

theorem nodeKey_eq_some (node : LightningNode) (k : Vertex) :
    nodeKey node = some k ↔ NewVertexFromStr node.PubKey = .ok k := by
  unfold nodeKey
  cases NewVertexFromStr node.PubKey <;> simp

theorem aliasLoop_cons_ok (aliasCount : Bytes → Nat) (node : LightningNode)
    (rest : List LightningNode) (σ σ' : ChatState)
    (h : aliasLoop aliasCount (node :: rest) σ = .ok σ') :
    ∃ key, nodeKey node = some key ∧
      aliasLoop aliasCount rest (enterNode aliasCount node key σ) = .ok σ' := by
  unfold aliasLoop at h
  cases hk : NewVertexFromStr node.PubKey with
  | error e => simp [hk] at h
  | ok key =>
    simp only [hk] at h
    exact ⟨key, (nodeKey_eq_some node key).2 hk, h⟩

/-- The second loop touches only the two alias maps. -/
theorem aliasLoop_frame (aliasCount : Bytes → Nat) (nodes : List LightningNode)
    (σ σ' : ChatState) (h : aliasLoop aliasCount nodes σ = .ok σ') :
    σ'.destination = σ.destination ∧ σ'.msgLines = σ.msgLines ∧
      σ'.runningBalance = σ.runningBalance ∧ σ'.self = σ.self := by
  induction nodes generalizing σ with
  | nil => simp only [aliasLoop, Outcome.ok.injEq] at h; subst h; simp
  | cons node rest ih =>
    obtain ⟨key, _, h'⟩ := aliasLoop_cons_ok aliasCount node rest σ σ' h
    simpa [enterNode] using ih _ h'

/-- Every public key of a graph on which the second loop succeeds parses. -/
theorem aliasLoop_nodeKey (aliasCount : Bytes → Nat) (nodes : List LightningNode)
    (σ σ' : ChatState) (h : aliasLoop aliasCount nodes σ = .ok σ')
    (node : LightningNode) (hn : node ∈ nodes) : ∃ k, nodeKey node = some k := by
  induction nodes generalizing σ with
  | nil => simp at hn
  | cons hd rest ih =>
    obtain ⟨key, hk, h'⟩ := aliasLoop_cons_ok aliasCount hd rest σ σ' h
    rcases List.mem_cons.1 hn with e | hmem
    · subst e; exact ⟨key, hk⟩
    · exact ih _ h' hmem

/-- Where an entry of `aliasToKey` comes from: it was there before, or a node
with that identity entered it under its display name or under its hex string. -/
theorem aliasLoop_aliasToKey_origin (aliasCount : Bytes → Nat) (nodes : List LightningNode)
    (σ σ' : ChatState) (h : aliasLoop aliasCount nodes σ = .ok σ') (s : Bytes) (k : Vertex)
    (hs : σ'.aliasToKey s = some k) :
    σ.aliasToKey s = some k ∨
      ∃ node ∈ nodes, nodeKey node = some k ∧
        (s = displayAlias aliasCount node ∨ s = k.String) := by
  induction nodes generalizing σ with
  | nil => simp only [aliasLoop, Outcome.ok.injEq] at h; subst h; exact Or.inl hs
  | cons hd rest ih =>
    obtain ⟨key, hk, h'⟩ := aliasLoop_cons_ok aliasCount hd rest σ σ' h
    rcases ih _ h' with h0 | ⟨node, hmem, hnk, hor⟩
    · simp only [enterNode, setKey] at h0
      split at h0
      · rename_i e1
        cases h0
        exact Or.inr ⟨hd, List.mem_cons_self _ _, hk, Or.inr e1⟩
      · split at h0
        · rename_i e2
          cases h0
          exact Or.inr ⟨hd, List.mem_cons_self _ _, hk, Or.inl e2⟩
        · exact Or.inl h0
    · exact Or.inr ⟨node, List.mem_cons_of_mem _ hmem, hnk, hor⟩

/-- An entry of `aliasToKey` stays when every later node that writes under the
same string has the same identity. -/
theorem aliasLoop_aliasToKey_stable (aliasCount : Bytes → Nat) (nodes : List LightningNode)
    (σ σ' : ChatState) (h : aliasLoop aliasCount nodes σ = .ok σ') (s : Bytes) (k : Vertex)
    (hs : σ.aliasToKey s = some k)
    (hother : ∀ j ∈ nodes, ∀ kj, nodeKey j = some kj → kj ≠ k →
      displayAlias aliasCount j ≠ s ∧ kj.String ≠ s) :
    σ'.aliasToKey s = some k := by
  induction nodes generalizing σ with
  | nil => simp only [aliasLoop, Outcome.ok.injEq] at h; subst h; exact hs
  | cons hd rest ih =>
    obtain ⟨key, hk, h'⟩ := aliasLoop_cons_ok aliasCount hd rest σ σ' h
    refine ih _ h' ?_ (fun j hj => hother j (List.mem_cons_of_mem _ hj))
    simp only [enterNode, setKey]
    by_cases hkey : key = k
    · subst hkey
      split
      · rfl
      · split
        · rfl
        · exact hs
    · obtain ⟨h1, h2⟩ := hother hd (List.mem_cons_self _ _) key hk hkey
      have e1 : ¬ s = key.String := fun e => h2 e.symm
      have e2 : ¬ s = displayAlias aliasCount hd := fun e => h1 e.symm
      simp only [e1, ↓reduceIte, e2]
      exact hs

/-- The display name of a node resolves to the node when no node with another
identity writes under that name. -/
theorem aliasLoop_aliasToKey_display (aliasCount : Bytes → Nat) (nodes : List LightningNode)
    (σ σ' : ChatState) (h : aliasLoop aliasCount nodes σ = .ok σ')
    (node : LightningNode) (k : Vertex) (hn : node ∈ nodes) (hk : nodeKey node = some k)
    (hother : ∀ j ∈ nodes, ∀ kj, nodeKey j = some kj → kj ≠ k →
      displayAlias aliasCount j ≠ displayAlias aliasCount node ∧
        kj.String ≠ displayAlias aliasCount node) :
    σ'.aliasToKey (displayAlias aliasCount node) = some k := by
  induction nodes generalizing σ with
  | nil => simp at hn
  | cons hd rest ih =>
    obtain ⟨key, hkey, h'⟩ := aliasLoop_cons_ok aliasCount hd rest σ σ' h
    have hrest := fun j hj => hother j (List.mem_cons_of_mem hd hj)
    rcases List.mem_cons.1 hn with e | hmem
    · subst e
      rw [hk] at hkey
      cases hkey
      refine aliasLoop_aliasToKey_stable aliasCount rest _ σ' h' _ k ?_ hrest
      simp only [enterNode, setKey]
      split
      · rfl
      · simp
    · exact ih _ h' hmem hrest

/-- The display name of an identity is the one of its node when every node with
that identity has the same display name. -/
theorem aliasLoop_keyToAlias (aliasCount : Bytes → Nat) (nodes : List LightningNode)
    (σ σ' : ChatState) (h : aliasLoop aliasCount nodes σ = .ok σ')
    (k : Vertex) (d : Bytes)
    (hstart : σ.keyToAlias k = some d ∨ ∃ node ∈ nodes, nodeKey node = some k)
    (hsame : ∀ j ∈ nodes, nodeKey j = some k → displayAlias aliasCount j = d) :
    σ'.keyToAlias k = some d := by
  induction nodes generalizing σ with
  | nil =>
    simp only [aliasLoop, Outcome.ok.injEq] at h
    subst h
    rcases hstart with h0 | ⟨_, hmem, _⟩
    · exact h0
    · simp at hmem
  | cons hd rest ih =>
    obtain ⟨key, hkey, h'⟩ := aliasLoop_cons_ok aliasCount hd rest σ σ' h
    refine ih _ h' ?_ (fun j hj => hsame j (List.mem_cons_of_mem hd hj))
    by_cases e : key = k
    · subst e
      left
      simp [enterNode, setAlias, hsame hd (List.mem_cons_self _ _) hkey]
    · rcases hstart with h0 | ⟨node, hmem, hnk⟩
      · left
        have e' : ¬ k = key := fun x => e x.symm
        simp [enterNode, setAlias, e', h0]
      · rcases List.mem_cons.1 hmem with e1 | hm
        · subst e1
          rw [hnk] at hkey
          cases hkey
          exact absurd rfl e
        · exact Or.inr ⟨node, hm, hnk⟩

/-- A successful `initAliasMaps` is a successful second loop followed by the
assignment of `self`. -/
theorem initAliasMaps_ok (nodes : List LightningNode) (GetInfo : Except GoError Bytes)
    (σ σ' : ChatState) (h : initAliasMaps (.ok nodes) GetInfo σ = .ok σ') :
    ∃ σ₁, aliasLoop (countAliases nodes) nodes σ = .ok σ₁ ∧
      σ'.aliasToKey = σ₁.aliasToKey ∧ σ'.keyToAlias = σ₁.keyToAlias ∧
      σ'.destination = σ.destination := by
  unfold initAliasMaps at h
  cases hl : aliasLoop (countAliases nodes) nodes σ with
  | panic => simp [hl] at h
  | failed σ₁ e => simp [hl] at h
  | ok σ₁ =>
    refine ⟨σ₁, rfl, ?_⟩
    have hf := (aliasLoop_frame _ _ _ _ hl).1
    simp only [hl] at h
    cases GetInfo with
    | error e => simp at h
    | ok pk =>
      simp only at h
      cases hp : NewVertexFromStr pk with
      | error e => simp [hp] at h
      | ok self =>
        simp only [hp, Outcome.ok.injEq] at h
        subst h
        exact ⟨rfl, rfl, hf⟩

/-- Nodes of a graph with pairwise distinct identities are told apart by their identity. -/
theorem eq_of_nodeKey_eq (nodes : List LightningNode) (hdistinct : (nodes.map nodeKey).Nodup)
    (a b : LightningNode) (ha : a ∈ nodes) (hb : b ∈ nodes) (h : nodeKey a = nodeKey b) :
    a = b :=
  List.inj_on_of_nodup_map hdistinct ha hb h

/-- What `setDest` selects when the string is in the alias table: the entry. -/
theorem setDest_of_entry (σ : ChatState) (destStr : Bytes) (k : Vertex)
    (h : σ.aliasToKey destStr = some k) : (setDest σ destStr).destination = some k := by
  unfold setDest
  cases NewVertexFromStr destStr <;> simp [h]

/-- What `setDest` selects when the string is not in the alias table: the
parsed identity, or nothing new when it does not parse. -/
theorem setDest_of_no_entry (σ : ChatState) (destStr : Bytes)
    (h : σ.aliasToKey destStr = none) :
    (setDest σ destStr).destination =
      match NewVertexFromStr destStr with
      | .ok dest => some dest
      | .error _ => σ.destination := by
  unfold setDest
  cases NewVertexFromStr destStr <;> simp [h]

/-- After `initAliasMaps` from empty alias maps, a string that parses as the
identity `X` selects `X` provided no node is entered under that string as its
display name; the hex strings that the loop enters map to their own identity. -/
theorem setDest_hex_identity (nodes : List LightningNode) (GetInfo : Except GoError Bytes)
    (σ σ' : ChatState) (destStr : Bytes) (X : Vertex)
    (hempty : ∀ s, σ.aliasToKey s = none)
    (hinit : initAliasMaps (.ok nodes) GetInfo σ = .ok σ')
    (hparse : NewVertexFromStr destStr = .ok X)
    (hnoname : ∀ j ∈ nodes, displayAlias (countAliases nodes) j ≠ destStr) :
    (setDest σ' destStr).destination = some X := by
  obtain ⟨σ₁, hloop, hak, _, _⟩ := initAliasMaps_ok nodes GetInfo σ σ' hinit
  cases hlook : σ'.aliasToKey destStr with
  | none => rw [setDest_of_no_entry σ' _ hlook, hparse]
  | some k =>
    rw [setDest_of_entry σ' _ k hlook]
    rw [hak] at hlook
    rcases aliasLoop_aliasToKey_origin _ _ _ _ hloop _ _ hlook with h0 | ⟨j, hj, _, hor⟩
    · simp [hempty] at h0
    · rcases hor with e | e
      · exact absurd e.symm (hnoname j hj)
      · rw [e, NewVertexFromStr_String] at hparse
        cases hparse
        rfl

/-! ## Claims -/

/-- C1. Inbound authenticity: for a settled invoice whose inspected record set
carries the message, signature, timestamp and a 33-byte sender record, when
the listener asks the signer (`VerifyMessage`) and the answer is `Valid = false`,
the listener step ends in `continue` with the whole ledger as it was: no line
is appended, no entry of `runningBalance` changes, and no error is reported. -/
theorem C1_inbound_authenticity (signClient : Signer) (σ : ChatState) (invoice : Invoice)
    (customRecords : Records) (msg signature timestampBytes senderBytes : Bytes)
    (req : Bytes × Bytes × Bytes)
    (hsettled : invoice.State = .SETTLED)
    (hrecs : inspectedRecords invoice.Htlcs = some customRecords)
    (hmsg : customRecords tlvMsgRecord = some msg)
    (hsig : customRecords tlvSigRecord = some signature)
    (htime : customRecords tlvTimeRecord = some timestampBytes)
    (hsender : customRecords tlvSenderRecord = some senderBytes)
    (hlen : senderBytes.length = 33)
    (hcall : listenerVerifyCall σ invoice = some req)
    (hanswer : signClient.VerifyMessage req.1 req.2.1 req.2.2 = .ok false) :
    listenerStep signClient σ invoice = .ok σ := by
  simp only [listenerVerifyCall, hsettled, hrecs, extractRecords, hmsg, hsig, htime, hsender,
    NewVertexFromBytes, hlen, getSignData_eq] at hcall
  simp only [listenerStep, hsettled, hrecs, extractRecords, hmsg, hsig, htime, hsender,
    NewVertexFromBytes, hlen, getSignData_eq]
  cases hts : Uint64 timestampBytes with
  | none => simp [hts] at hcall
  | some u =>
    simp only [hts, ne_eq, not_true_eq_false, ↓reduceIte, ↓reduceDIte, Option.some.injEq]
      at hcall ⊢
    subst hcall
    simp only [List.append_assoc] at hanswer
    simp [hanswer]

theorem C1_inbound_authenticity_witness :
    listenerVerifyCall (emptyState (sampleVertex 2)) (settledInvoice sampleRecords 1000)
        = some ((sampleVertex 1).bytes ++ (sampleVertex 2).bytes ++ timeBufferOf 1000 ++ [104, 105],
            [], (sampleVertex 1).bytes) ∧
      listenerStep (constSigner false) (emptyState (sampleVertex 2))
        (settledInvoice sampleRecords 1000) = .ok (emptyState (sampleVertex 2)) :=
  ⟨by rfl,
   C1_inbound_authenticity (constSigner false) (emptyState (sampleVertex 2))
    (settledInvoice sampleRecords 1000) sampleRecords [104, 105] [] (timeBufferOf 1000)
    (sampleVertex 1).bytes
    ((sampleVertex 1).bytes ++ (sampleVertex 2).bytes ++ timeBufferOf 1000 ++ [104, 105],
      [], (sampleVertex 1).bytes)
    rfl rfl rfl rfl rfl rfl rfl (by rfl) rfl⟩

/-- The payload on the two sides of a record set: for a sender `S`, a recipient
`R`, a timestamp `t` and any text `m`, the records `customRecordsOf` extract to
a payload whose `getSignData` with `self = R` equals `getSignData S R
timeBuffer m`, which is `S`, `R`, the 8 big-endian bytes of `t`, then `m`. -/
theorem customRecordsOf_payload (S R : Vertex) (t : Int) (m signature preimage : Bytes) :
    ∃ p : ChatPayload,
      extractRecords (customRecordsOf m S (timeBufferOf t) signature preimage) = .chat p ∧
      getSignData p.sender R p.timestampBytes p.msg = getSignData S R (timeBufferOf t) m ∧
      getSignData S R (timeBufferOf t) m
        = .ok (S.bytes ++ R.bytes ++ PutUint64 (toUint64 t) ++ m) ∧
      S.bytes.length = 33 ∧ R.bytes.length = 33 ∧ (PutUint64 (toUint64 t)).length = 8 ∧
      Uint64 (PutUint64 (toUint64 t)) = some (toUint64 t) ∧
      ∀ (σ : ChatState) (AmtPaid : Int), σ.self = R →
        listenerVerifyCall σ
            (settledInvoice (customRecordsOf m S (timeBufferOf t) signature preimage) AmtPaid)
          = some (S.bytes ++ R.bytes ++ PutUint64 (toUint64 t) ++ m, signature, S.bytes) := by
  refine ⟨_, extractRecords_customRecordsOf m S t signature preimage, ?_, ?_, S.size, R.size,
    rfl, Uint64_PutUint64 _ (toUint64_lt t), ?_⟩
  · rfl
  · rw [getSignData_eq]; rfl
  · intro σ AmtPaid hself
    have h := extractRecords_customRecordsOf m S t signature preimage
    simp [listenerVerifyCall, settledInvoice, inspectedRecords, h, getSignData_eq, hself]
    rfl

/-- C2. Sign/verify payload agreement: when the dispatcher of `S = σ.self`
sends the text `m = c :: tl` to the selected destination `R` at time
`t = env.UnixNano`, it signs `S` (33 bytes), `R` (33 bytes), the 8 big-endian
bytes of `t`, then `m` (the payment starts with the signature that the signer
gives for exactly these bytes) and attaches it; the listener running at `R`
rebuilds from the attached records, with `getSignData sender self
timestampBytes msg`, byte for byte the same payload `getSignData S R
timeBuffer m`, and that payload, the attached signature and `S` are what its
step hands to `VerifyMessage`. -/
theorem C2_payload_agreement (chatMsgAmt : Int) (signS : Signer) (env : SendEnv)
    (σ : ChatState) (c : Byte) (tl : Bytes) (rest : List Bytes) (R : Vertex)
    (preimage signature : Bytes)
    (hc : c ≠ 47) (hD : σ.destination = some R) (hr : env.randRead = .ok preimage)
    (hs : signS.SignMessage
        (σ.self.bytes ++ R.bytes ++ PutUint64 (toUint64 env.UnixNano) ++ c :: tl)
          = .ok signature) :
    ∃ (σ₁ : ChatState) (task : StatusTask),
      sendMessage chatMsgAmt signS env σ ((c :: tl) :: rest) = .dispatched σ₁ task ∧
      task.req.Dest = R.bytes ∧
      task.req.DestCustomRecords tlvSigRecord = some signature ∧
      getSignData σ.self R (timeBufferOf env.UnixNano) (c :: tl)
        = .ok (σ.self.bytes ++ R.bytes ++ PutUint64 (toUint64 env.UnixNano) ++ c :: tl) ∧
      σ.self.bytes.length = 33 ∧ R.bytes.length = 33 ∧
      (PutUint64 (toUint64 env.UnixNano)).length = 8 ∧
      Uint64 (PutUint64 (toUint64 env.UnixNano)) = some (toUint64 env.UnixNano) ∧
      ∀ (signR : Signer) (σR : ChatState) (AmtPaid : Int), σR.self = R →
        (∃ p : ChatPayload, extractRecords task.req.DestCustomRecords = .chat p ∧
          getSignData p.sender σR.self p.timestampBytes p.msg
            = getSignData σ.self R (timeBufferOf env.UnixNano) (c :: tl)) ∧
        listenerVerifyCall σR (settledInvoice task.req.DestCustomRecords AmtPaid)
          = some (σ.self.bytes ++ R.bytes ++ PutUint64 (toUint64 env.UnixNano) ++ c :: tl,
              signature, σ.self.bytes) ∧
        listenerStep signR σR (settledInvoice task.req.DestCustomRecords AmtPaid)
          = match signR.VerifyMessage
                (σ.self.bytes ++ R.bytes ++ PutUint64 (toUint64 env.UnixNano) ++ c :: tl)
                signature σ.self.bytes with
            | .error err => .failed σR err
            | .ok valid =>
              if !valid then .ok σR
              else acceptChat σR
                { msg := c :: tl, signature := signature,
                  timestampBytes := timeBufferOf env.UnixNano,
                  timestamp := toInt64 (toUint64 env.UnixNano), sender := σ.self } AmtPaid := by
  have hsend := sendMessage_eq_dispatched chatMsgAmt signS env σ c tl rest R preimage signature
    hc hD hr hs
  refine ⟨_, _, hsend, rfl, ?_, ?_, σ.self.size, R.size, rfl,
    Uint64_PutUint64 _ (toUint64_lt _), ?_⟩
  · simp [customRecordsOf, tlvMsgRecord, tlvSigRecord, tlvSenderRecord, tlvTimeRecord]
  · rw [getSignData_eq]; rfl
  · intro signR σR AmtPaid hself
    obtain ⟨p, hp, hpay, _, _, _, _, _, hcall⟩ :=
      customRecordsOf_payload σ.self R env.UnixNano (c :: tl) signature preimage
    refine ⟨⟨p, hp, ?_⟩, hcall σR AmtPaid hself, ?_⟩
    · rw [hself]; exact hpay
    · have hstep := listenerStep_customRecordsOf signR σR (c :: tl) σ.self env.UnixNano
        signature preimage AmtPaid
      rw [hself] at hstep
      exact hstep

theorem C2_payload_agreement_witness :
    ∃ (σ₁ : ChatState) (task : StatusTask),
      sendMessage 1000 (constSigner true) sampleEnv sampleSendState [[104, 105]]
        = .dispatched σ₁ task ∧
      task.req.DestCustomRecords tlvSigRecord = some [] ∧
      listenerVerifyCall (emptyState (sampleVertex 2))
          (settledInvoice task.req.DestCustomRecords 1000)
        = some ((sampleVertex 1).bytes ++ (sampleVertex 2).bytes ++ PutUint64 (toUint64 1000)
              ++ [104, 105], [], (sampleVertex 1).bytes) ∧
      listenerStep (constSigner false) (emptyState (sampleVertex 2))
          (settledInvoice task.req.DestCustomRecords 1000)
        = .ok (emptyState (sampleVertex 2)) :=
  match C2_payload_agreement 1000 (constSigner true) sampleEnv sampleSendState 104 [105] []
      (sampleVertex 2) [] [] (by decide) rfl rfl rfl with
  | ⟨σ₁, task, hsend, _, hsig, _, _, _, _, _, hall⟩ =>
    ⟨σ₁, task, hsend, hsig,
      (hall (constSigner false) (emptyState (sampleVertex 2)) 1000 rfl).2.1,
      (hall (constSigner false) (emptyState (sampleVertex 2)) 1000 rfl).2.2⟩

/-- C3. Codec round trip: for a text `m`, a sender `S`, an `int64` timestamp `t`
(negative ones included), any signature and proof key, the record extraction of
the listener applied to the map that the dispatcher builds returns exactly `m`,
`S` and `t` (and the signature and the timestamp bytes as they were sent). -/
theorem C3_codec_round_trip (m : Bytes) (S : Vertex) (t : Int) (signature preimage : Bytes)
    (ht : isInt64 t) :
    extractRecords (customRecordsOf m S (timeBufferOf t) signature preimage)
      = .chat { msg := m, signature := signature, timestampBytes := timeBufferOf t,
                timestamp := t, sender := S } := by
  rw [extractRecords_customRecordsOf, toInt64_toUint64 t ht]

theorem C3_codec_round_trip_witness :
    isInt64 (-5) ∧
      extractRecords (customRecordsOf [104, 105] (sampleVertex 1) (timeBufferOf (-5)) [7] [9])
        = .chat { msg := [104, 105], signature := [7], timestampBytes := timeBufferOf (-5),
                  timestamp := -5, sender := sampleVertex 1 } :=
  ⟨by decide, C3_codec_round_trip [104, 105] (sampleVertex 1) (-5) [7] [9] (by decide)⟩

/-- C6. Amount policy: for a running balance `b` of the current destination and
a configured minimum `m` with `0 ≤ m` and `10 * m` representable in `int64`,
the amount that `sendMessage` computes is `min (max b m) (10 * m)`, between `m`
and `10 * m`; a send that starts a payment (the line is no `/` command, the
preimage is drawn, the signer signs) places exactly this amount in the
`AmtMsat` of the request, and no send places another; with `m = 1000`,
`b = 15000` gives `10000` and `b = 500` gives `1000`. -/
theorem C6_amount_policy (b m : Int) (hm : 0 ≤ m) (h10 : isInt64 (10 * m)) :
    payAmtFor m b = min (max b m) (10 * m) ∧
      m ≤ payAmtFor m b ∧ payAmtFor m b ≤ 10 * m ∧
      payAmtFor 1000 15000 = 10000 ∧ payAmtFor 1000 500 = 1000 ∧
      (∀ (signClient : Signer) (env : SendEnv) (σ : ChatState) (c : Byte) (tl : Bytes)
        (rest : List Bytes) (D : Vertex) (preimage signature : Bytes),
        σ.destination = some D → σ.runningBalance D = b →
        c ≠ 47 → env.randRead = .ok preimage →
        signClient.SignMessage
            (σ.self.bytes ++ D.bytes ++ timeBufferOf env.UnixNano ++ c :: tl) = .ok signature →
        ∃ (σ₁ : ChatState) (task : StatusTask),
          sendMessage m signClient env σ ((c :: tl) :: rest) = .dispatched σ₁ task ∧
          task.req.Dest = D.bytes ∧
          task.req.AmtMsat = min (max b m) (10 * m) ∧
          m ≤ task.req.AmtMsat ∧ task.req.AmtMsat ≤ 10 * m) ∧
      ∀ (signClient : Signer) (env : SendEnv) (σ σ₁ : ChatState) (BufferLines : List Bytes)
        (task : StatusTask) (D : Vertex),
        σ.destination = some D → σ.runningBalance D = b →
        sendMessage m signClient env σ BufferLines = .dispatched σ₁ task →
        task.req.AmtMsat = min (max b m) (10 * m) := by
  have key : payAmtFor m b = min (max b m) (10 * m) := by
    simp only [payAmtFor, toInt64_of_isInt64 _ h10]
    omega
  have hlo : m ≤ min (max b m) (10 * m) := by omega
  have hhi : min (max b m) (10 * m) ≤ 10 * m := by omega
  refine ⟨key, by rw [key]; exact hlo, by rw [key]; exact hhi, by decide, by decide, ?_, ?_⟩
  · intro signClient env σ c tl rest D preimage signature hD hb hc hr hs
    have hsend := sendMessage_eq_dispatched m signClient env σ c tl rest D preimage signature
      hc hD hr hs
    refine ⟨_, _, hsend, rfl, ?_, ?_, ?_⟩
    · simp only [hb, key]
    · simp only [hb, key]; exact hlo
    · simp only [hb, key]; exact hhi
  · intro signClient env σ σ₁ BufferLines task D hD hb hsend
    obtain ⟨_, _, _, _, hpay, hamt, _⟩ :=
      sendMessage_dispatched m signClient env σ σ₁ BufferLines task D hD hsend
    rw [hamt, hpay, hb, key]

theorem C6_amount_policy_witness :
    (∃ (σ₁ : ChatState) (task : StatusTask),
      sendMessage 1000 (constSigner true) sampleEnv (sampleStateWithBalance 15000) [[104, 105]]
        = .dispatched σ₁ task ∧
      task.req.Dest = (sampleVertex 2).bytes ∧ task.req.AmtMsat = 10000) ∧
    (∃ (σ₁ : ChatState) (task : StatusTask),
      sendMessage 1000 (constSigner true) sampleEnv (sampleStateWithBalance 500) [[104, 105]]
        = .dispatched σ₁ task ∧
      task.req.Dest = (sampleVertex 2).bytes ∧ task.req.AmtMsat = 1000) :=
  ⟨match (C6_amount_policy 15000 1000 (by decide) (by decide)).2.2.2.2.2.1 (constSigner true)
        sampleEnv (sampleStateWithBalance 15000) 104 [105] [] (sampleVertex 2) [] []
        rfl rfl (by decide) rfl rfl with
    | ⟨σ₁, task, hsend, hdest, hamt, _, _⟩ => ⟨σ₁, task, hsend, hdest, hamt.trans (by decide)⟩,
   match (C6_amount_policy 500 1000 (by decide) (by decide)).2.2.2.2.2.1 (constSigner true)
        sampleEnv (sampleStateWithBalance 500) 104 [105] [] (sampleVertex 2) [] []
        rfl rfl (by decide) rfl rfl with
    | ⟨σ₁, task, hsend, hdest, hamt, _, _⟩ => ⟨σ₁, task, hsend, hdest, hamt.trans (by decide)⟩⟩

/-- The status goroutine run right after the send, with nothing in between: the
line of the message is pending, and on a stream of `IN_FLIGHT` statuses
followed by at most one other status, the ledger is left as it was with no
other status; with a `SUCCEEDED` status carrying a route the line ends
delivered with the reported fees, the balance of the destination `D` is the
former one minus the amount (an `int64` subtraction) and no other balance
changes; with any other status the line ends failed and no balance changes. -/
theorem statusLoop_after_send (chatMsgAmt : Int) (signClient : Signer) (env : SendEnv)
    (σ σ₁ : ChatState) (newMsg : Bytes) (rest : List Bytes) (task : StatusTask) (D : Vertex)
    (inflight : List PaymentStatus)
    (hD : σ.destination = some D)
    (hsend : sendMessage chatMsgAmt signClient env σ (newMsg :: rest) = .dispatched σ₁ task)
    (hin : ∀ s ∈ inflight, s.State = .IN_FLIGHT) :
    task.req.Dest = D.bytes ∧ task.req.AmtMsat = task.payAmt ∧
      σ₁.msgLines[task.msgIdx]?
        = some { sender := σ.self, text := newMsg, recipient := some D,
                 state := .statePending } ∧
      statusLoop task σ₁ inflight = .ok σ₁ ∧
      (∀ fees : Int, ∃ σ₂ : ChatState,
        statusLoop task σ₁ (inflight ++ [{ State := .SUCCEEDED, Route := some ⟨fees⟩ }])
          = .ok σ₂ ∧
        σ₂.msgLines = σ₁.msgLines.set task.msgIdx
          { sender := σ.self, text := newMsg, recipient := some D,
            state := .stateDelivered, fee := toUint64 fees } ∧
        σ₂.runningBalance D = toInt64 (σ₁.runningBalance D - task.payAmt) ∧
        (isInt64 (σ₁.runningBalance D - task.payAmt) →
          σ₂.runningBalance D = σ₁.runningBalance D - task.payAmt) ∧
        (∀ k, k ≠ D → σ₂.runningBalance k = σ₁.runningBalance k) ∧
        σ₂.destination = σ₁.destination ∧
        (0 ≤ fees → fees ≤ maxInt64 → (toUint64 fees : Int) = fees)) ∧
      (∀ status : PaymentStatus, status.State ≠ .IN_FLIGHT → status.State ≠ .SUCCEEDED →
        ∃ σ₂ : ChatState,
          statusLoop task σ₁ (inflight ++ [status]) = .ok σ₂ ∧
          σ₂.msgLines = σ₁.msgLines.set task.msgIdx
            { sender := σ.self, text := newMsg, recipient := some D,
              state := .stateFailed } ∧
          (∀ k, σ₂.runningBalance k = σ₁.runningBalance k) ∧
          σ₂.destination = σ₁.destination) := by
  obtain ⟨newMsg', hhead, hσ₁, hidx, _, hamt, hdest⟩ :=
    sendMessage_dispatched chatMsgAmt signClient env σ σ₁ (newMsg :: rest) task D hD hsend
  simp only [List.head?_cons, Option.some.injEq] at hhead
  subst hhead
  have hdest₁ : σ₁.destination = some D := by rw [hσ₁]; exact hD
  refine ⟨hdest, hamt, ?_, ?_, ?_, ?_⟩
  · subst hσ₁
    simp [hidx]
  · simpa using statusLoop_inflight_append task _ inflight [] hin
  · intro fees
    refine ⟨{ σ₁ with
        msgLines := σ₁.msgLines.set task.msgIdx
          { sender := σ.self, text := newMsg, recipient := some D,
            state := .stateDelivered, fee := toUint64 fees }
        runningBalance := setBalance σ₁.runningBalance D
          (toInt64 (σ₁.runningBalance D - task.payAmt)) }, ?_, rfl, ?_, ?_, ?_, rfl, ?_⟩
    · rw [statusLoop_inflight_append task _ inflight _ hin]
      subst hσ₁
      simp [statusLoop, statusStep, hidx, setFee_last, setState_last, hD]
    · simp [setBalance]
    · intro h
      simp [setBalance, toInt64_of_isInt64 _ h]
    · intro k hk
      simp [setBalance, hk]
    · intro h0 h1
      unfold maxInt64 at h1
      unfold toUint64
      omega
  · intro status h1 h2
    refine ⟨{ σ₁ with
        msgLines := σ₁.msgLines.set task.msgIdx
          { sender := σ.self, text := newMsg, recipient := some D,
            state := .stateFailed } }, ?_, rfl, fun _ => rfl, rfl⟩
    rw [statusLoop_inflight_append task _ inflight _ hin]
    subst hσ₁
    cases hst : status.State <;>
      simp_all [statusLoop, statusStep, setState_last]

/-- C4. Evaluation at a well-formed stream that is handled after a destination
switch: `sampleSendState` sends to `sampleVertex 2` with amount `1000`, the
user selects `sampleVertex 3` with a `/` command, and the stream of the send
delivers `IN_FLIGHT`, then `SUCCEEDED` with fees `7`, then the read error. The
line ends delivered with fee `7`, but the debit is taken at
`runningBalance[*destination]`: the balance of `sampleVertex 2`, the peer of
the dispatch, stays `0` and the balance of `sampleVertex 3` drops to `-1000`. -/
theorem C4_success_after_switch_leaves_peer_balance :
    sendMessage 1000 (constSigner true) sampleEnv sampleSendState [[104, 105]]
        = .dispatched sampleDispatched sampleTask ∧
      sampleTask.req.Dest = (sampleVertex 2).bytes ∧ sampleTask.req.AmtMsat = 1000 ∧
      sampleDispatched.runningBalance (sampleVertex 2) = 0 ∧
      ∃ σ₂ σ₃ : ChatState,
        sendMessage 1000 (constSigner true) sampleEnv sampleDispatched
          [destCommand (sampleVertex 3)] = .returned σ₂ none ∧
        σ₂.msgLines = sampleDispatched.msgLines ∧
        statusLoop sampleTask σ₂
          [{ State := .IN_FLIGHT, Route := none }, succeededStatus 7] = .ok σ₃ ∧
        σ₃.msgLines.map (fun line => (line.state, line.fee)) = [(.stateDelivered, 7)] ∧
        σ₃.runningBalance (sampleVertex 2) = 0 ∧
        σ₃.runningBalance (sampleVertex 3) = -1000 :=
  ⟨rfl, rfl, rfl, rfl, _, _, rfl, rfl, rfl, by decide, by decide, by decide⟩

/-- C5. Evaluation at a stream with two `SUCCEEDED` statuses: after the send of
`sampleSendState` (balance `0` for the destination, amount `1000`), the loop
handles both statuses, since `break` only leaves the `switch`; the balance of
the destination ends at `-2000`, two debits, and the fee of the second status
overwrites the first. -/
theorem C5_duplicate_success_debits_twice :
    sendMessage 1000 (constSigner true) sampleEnv sampleSendState [[104, 105]]
        = .dispatched sampleDispatched sampleTask ∧
      sampleDispatched.runningBalance (sampleVertex 2) = 0 ∧ sampleTask.payAmt = 1000 ∧
      ∃ σ₂ : ChatState,
        statusLoop sampleTask sampleDispatched [succeededStatus 7, succeededStatus 9] = .ok σ₂ ∧
        σ₂.runningBalance (sampleVertex 2) = -2000 ∧
        σ₂.msgLines = [{ sender := sampleVertex 1, text := [104, 105],
                         recipient := some (sampleVertex 2), state := .stateDelivered,
                         fee := 9 }] :=
  ⟨rfl, rfl, rfl, _, rfl, by decide, by decide⟩

/-- C7. Evaluation at record sets with a malformed timestamp record: with a
3-byte timestamp the listener step panics in `byteOrder.Uint64`, also when the
sender record is absent, whatever the signer would answer; with a 9-byte
timestamp whose signature verifies the payment is taken as a chat message, a
line is appended and the balance is credited. -/
theorem C7_malformed_timestamp_disrupts :
    (∀ signClient : Signer,
      listenerStep signClient (emptyState (sampleVertex 2))
        (settledInvoice (recordsWithTime [1, 2, 3]) 1000) = .panic) ∧
      extractRecords
        (fun tag => if tag = tlvSenderRecord then none else recordsWithTime [1, 2, 3] tag)
        = .panic ∧
      ∃ σ₂ : ChatState,
        listenerStep (constSigner true) (emptyState (sampleVertex 2))
          (settledInvoice (recordsWithTime [0, 0, 0, 0, 0, 0, 0, 5, 9]) 1000) = .ok σ₂ ∧
        σ₂.msgLines = [{ sender := sampleVertex 1, text := [104, 105], timestamp := some 5 }] ∧
        σ₂.runningBalance (sampleVertex 1) = 1000 ∧
        σ₂.destination = some (sampleVertex 1) :=
  ⟨fun _ => rfl, by decide, _, rfl, by decide, by decide, by decide⟩

/-- C8. Evaluation at a ledger where another destination is selected: a
verified message from `sampleVertex 1` paying `500` arrives while
`sampleVertex 3` is the destination; the line is attributed to the sender, but
the credit goes to `runningBalance[*destination]`, the balance of
`sampleVertex 3`, and the balance of the sender stays `0`. -/
theorem C8_credit_goes_to_destination :
    ∃ σ₂ : ChatState,
      listenerStep (constSigner true)
        { emptyState (sampleVertex 2) with destination := some (sampleVertex 3) }
        (settledInvoice sampleRecords 500) = .ok σ₂ ∧
      σ₂.msgLines = [{ sender := sampleVertex 1, text := [104, 105], timestamp := some 1000 }] ∧
      σ₂.runningBalance (sampleVertex 1) = 0 ∧
      σ₂.runningBalance (sampleVertex 3) = 500 ∧
      σ₂.destination = some (sampleVertex 3) :=
  ⟨_, rfl, by decide, by decide, by decide, by decide⟩

/-- C9. Evaluation at a destination switch between the send and the success:
`sampleSendState` sends to `sampleVertex 2` with amount `1000`, the user then
enters `/` with the identity of `sampleVertex 3`, and the `SUCCEEDED` status
arrives; the debit is taken from `runningBalance[*destination]`, the balance of
`sampleVertex 3`, and the balance of the peer that was paid stays `0`. -/
theorem C9_debit_follows_destination_switch :
    sendMessage 1000 (constSigner true) sampleEnv sampleSendState [[104, 105]]
        = .dispatched sampleDispatched sampleTask ∧
      sampleTask.req.Dest = (sampleVertex 2).bytes ∧
      ∃ σ₂ σ₃ : ChatState,
        sendMessage 1000 (constSigner true) sampleEnv sampleDispatched
          [destCommand (sampleVertex 3)] = .returned σ₂ none ∧
        σ₂.destination = some (sampleVertex 3) ∧
        statusLoop sampleTask σ₂ [succeededStatus 7] = .ok σ₃ ∧
        σ₃.runningBalance (sampleVertex 2) = 0 ∧
        σ₃.runningBalance (sampleVertex 3) = -1000 :=
  ⟨rfl, rfl, _, _, rfl, by decide, rfl, by decide, by decide⟩

/-- C10. Evaluation at streams that go on after a terminal status: after the
send of `sampleSendState`, a `SUCCEEDED` status followed by a failure status
leaves the line failed (it had been delivered), and a failure status followed
by a `SUCCEEDED` status leaves the line delivered with a fee and the balance
debited (it had been failed). -/
theorem C10_terminal_states_not_absorbing :
    (∃ σ₂ σ₃ : ChatState,
      statusLoop sampleTask sampleDispatched [succeededStatus 7] = .ok σ₂ ∧
      σ₂.msgLines.map (fun line => (line.state, line.fee)) = [(.stateDelivered, 7)] ∧
      statusLoop sampleTask sampleDispatched [succeededStatus 7, failedStatus] = .ok σ₃ ∧
      σ₃.msgLines.map (fun line => (line.state, line.fee)) = [(.stateFailed, 7)]) ∧
    (∃ σ₂ σ₃ : ChatState,
      statusLoop sampleTask sampleDispatched [failedStatus] = .ok σ₂ ∧
      σ₂.msgLines.map (fun line => (line.state, line.fee)) = [(.stateFailed, 0)] ∧
      statusLoop sampleTask sampleDispatched [failedStatus, succeededStatus 7] = .ok σ₃ ∧
      σ₃.msgLines.map (fun line => (line.state, line.fee)) = [(.stateDelivered, 7)] ∧
      σ₃.runningBalance (sampleVertex 2) = -1000) :=
  ⟨⟨_, _, rfl, by decide, rfl, by decide⟩, ⟨_, _, rfl, by decide, rfl, by decide, by decide⟩⟩

/-- C11. Evaluation at two record sets that the listener accepts: the message
`Xhi` with the 8-byte timestamp of `1000`, and the message `hi` with the same
8 bytes followed by the byte `X` as its timestamp record. Both are extracted
as chat payloads with the same sender and the same displayed timestamp, and
`getSignData` gives the same payload for both, so one signature covers both,
while the timestamp bytes and the message bytes differ. -/
theorem C11_payload_ambiguous_on_long_timestamp :
    ∃ p₁ p₂ : ChatPayload,
      extractRecords (customRecordsOf [88, 104, 105] (sampleVertex 1) (timeBufferOf 1000) [] [])
        = .chat p₁ ∧
      extractRecords
          (customRecordsOf [104, 105] (sampleVertex 1) (timeBufferOf 1000 ++ [88]) [] [])
        = .chat p₂ ∧
      getSignData p₁.sender (sampleVertex 2) p₁.timestampBytes p₁.msg
        = getSignData p₂.sender (sampleVertex 2) p₂.timestampBytes p₂.msg ∧
      p₁.sender = p₂.sender ∧ p₁.timestamp = 1000 ∧ p₂.timestamp = 1000 ∧
      p₁.timestampBytes ≠ p₂.timestampBytes ∧ p₁.msg ≠ p₂.msg :=
  ⟨_, _, rfl, rfl, rfl, rfl, by decide, by decide, by decide, by decide⟩

/-- C12, as stated, fails on the graph `hexAliasNodes`: two nodes with distinct
identities publish the same alias, the 66 hex characters of the identity of
the first. The alias is used by more than one node, yet the bare alias
resolves, in `aliasToKey` and through `setDest`, to the first of them, one of
the colliding peers. -/
theorem C12_counterexample :
    initAliasMaps (.ok hexAliasNodes) (.ok (sampleVertex 9).String) startState
        = .ok (sampleDirectory hexAliasNodes) ∧
      hexAliasNodes.map nodeKey = [some (sampleVertex 1), some (sampleVertex 2)] ∧
      hexAliasNodes.map (fun node => node.Alias)
        = [(sampleVertex 1).String, (sampleVertex 1).String] ∧
      hexAliasNodes.countP (fun node => node.Alias = (sampleVertex 1).String) = 2 ∧
      (sampleDirectory hexAliasNodes).aliasToKey (sampleVertex 1).String
        = some (sampleVertex 1) ∧
      startState.destination = none ∧
      (setDest (sampleDirectory hexAliasNodes) (sampleVertex 1).String).destination
        = some (sampleVertex 1) :=
  ⟨rfl, by decide, by decide, by decide, by decide, rfl, by decide⟩

/-- C12, amended. For a graph of nodes with pairwise distinct identities on
which `initAliasMaps` succeeds from empty alias maps, and for a node with
identity `k` whose alias is used by more than one node: the display name of
the node in `keyToAlias` is its alias, `-`, and the first 6 characters of its
public key; and unless the alias parses as the hex identity `k` of the node
itself, the bare alias does not resolve to the node, neither in `aliasToKey`
nor through `setDest`, which leaves the node selected only if it was the
destination already. -/
theorem C12_alias_collision (nodes : List LightningNode) (GetInfo : Except GoError Bytes)
    (σ σ' : ChatState) (node : LightningNode) (k : Vertex)
    (hempty : ∀ s, σ.aliasToKey s = none)
    (hdistinct : (nodes.map nodeKey).Nodup)
    (hinit : initAliasMaps (.ok nodes) GetInfo σ = .ok σ')
    (hnode : node ∈ nodes) (hk : nodeKey node = some k)
    (hcount : 1 < nodes.countP (fun n => n.Alias = node.Alias)) :
    σ'.keyToAlias k = some (node.Alias ++ ([45] ++ node.PubKey.take 6)) ∧
      (NewVertexFromStr node.Alias ≠ .ok k →
        σ'.aliasToKey node.Alias ≠ some k ∧
        ((setDest σ' node.Alias).destination = some k → σ'.destination = some k)) := by
  obtain ⟨σ₁, hloop, hak, hka, _⟩ := initAliasMaps_ok nodes GetInfo σ σ' hinit
  have hdisp : displayAlias (countAliases nodes) node
      = node.Alias ++ ([45] ++ node.PubKey.take 6) := by
    have hc : countAliases nodes node.Alias > 1 := by rw [countAliases_eq]; exact hcount
    simp [displayAlias, hc]
  refine ⟨?_, ?_⟩
  · rw [hka, ← hdisp]
    refine aliasLoop_keyToAlias _ _ _ _ hloop k _ (Or.inr ⟨node, hnode, hk⟩) ?_
    intro j hj hjk
    rw [eq_of_nodeKey_eq nodes hdistinct j node hj hnode (hjk.trans hk.symm)]
  · intro hnothex
    have hno : σ'.aliasToKey node.Alias ≠ some k := by
      intro habs
      rw [hak] at habs
      rcases aliasLoop_aliasToKey_origin _ _ _ _ hloop _ _ habs with h0 | ⟨j, hj, hjk, hor⟩
      · simp [hempty] at h0
      · rcases hor with e | e
        · have hjn : j = node :=
            eq_of_nodeKey_eq nodes hdistinct j node hj hnode (hjk.trans hk.symm)
          subst hjn
          rw [hdisp] at e
          have hl := congrArg List.length e
          simp at hl
        · exact hnothex (e ▸ NewVertexFromStr_String k)
    refine ⟨hno, ?_⟩
    intro hsel
    cases hlook : σ'.aliasToKey node.Alias with
    | some dest =>
      rw [setDest_of_entry σ' _ dest hlook] at hsel
      exact absurd (hlook.trans hsel) hno
    | none =>
      rw [setDest_of_no_entry σ' _ hlook] at hsel
      cases hp : NewVertexFromStr node.Alias with
      | ok v =>
        simp only [hp, Option.some.injEq] at hsel
        subst hsel
        exact absurd hp hnothex
      | error e => simpa [hp] using hsel

theorem C12_alias_collision_witness :
    ((sampleDirectory bobNodes).keyToAlias (prefixedVertex 0xaa 0xbb 0xcc 1)
        = some ((nodeOf (prefixedVertex 0xaa 0xbb 0xcc 1) bob).Alias ++
            ([45] ++ (nodeOf (prefixedVertex 0xaa 0xbb 0xcc 1) bob).PubKey.take 6)) ∧
      (sampleDirectory bobNodes).aliasToKey (nodeOf (prefixedVertex 0xaa 0xbb 0xcc 1) bob).Alias
        ≠ some (prefixedVertex 0xaa 0xbb 0xcc 1) ∧
      ((setDest (sampleDirectory bobNodes)
          (nodeOf (prefixedVertex 0xaa 0xbb 0xcc 1) bob).Alias).destination
          = some (prefixedVertex 0xaa 0xbb 0xcc 1) →
        (sampleDirectory bobNodes).destination = some (prefixedVertex 0xaa 0xbb 0xcc 1))) ∧
    (sampleDirectory bobNodes).keyToAlias (prefixedVertex 0xaa 0xbb 0xcc 1)
      = some [66, 111, 98, 45, 97, 97, 98, 98, 99, 99] ∧
    (sampleDirectory bobNodes).keyToAlias (prefixedVertex 0xbb 0xcc 0xdd 2)
      = some [66, 111, 98, 45, 98, 98, 99, 99, 100, 100] ∧
    (sampleDirectory bobNodes).aliasToKey bob = none ∧
    (setDest (sampleDirectory bobNodes) bob).destination = none :=
  ⟨⟨(C12_alias_collision bobNodes (.ok (sampleVertex 9).String) startState
        (sampleDirectory bobNodes) (nodeOf (prefixedVertex 0xaa 0xbb 0xcc 1) bob)
        (prefixedVertex 0xaa 0xbb 0xcc 1)
        (fun _ => rfl) (by decide) rfl (by decide) (by decide) (by decide)).1,
      (C12_alias_collision bobNodes (.ok (sampleVertex 9).String) startState
        (sampleDirectory bobNodes) (nodeOf (prefixedVertex 0xaa 0xbb 0xcc 1) bob)
        (prefixedVertex 0xaa 0xbb 0xcc 1)
        (fun _ => rfl) (by decide) rfl (by decide) (by decide) (by decide)).2
        (by
          intro h
          have e : NewVertexFromStr (nodeOf (prefixedVertex 0xaa 0xbb 0xcc 1) bob).Alias
              = .error (.invalidVertexLength 3) := rfl
          rw [e] at h
          cases h)⟩,
    by decide, by decide, by decide, by decide⟩

/-- C13, as stated, fails on two graphs of nodes with distinct identities. In
`sharedPrefixNodes` two nodes share the alias `Bob` and the first 6 hex
characters `aabbcc`; both get the display name `Bob-aabbcc`, which resolves to
the second node, so the display name of the first does not select the first.
In `hexNamedNodes` the display name of the first node is the hex identity of
the second, and resolves to the second. -/
theorem C13_counterexample :
    (initAliasMaps (.ok sharedPrefixNodes) (.ok (sampleVertex 9).String) startState
        = .ok (sampleDirectory sharedPrefixNodes) ∧
      (sharedPrefixNodes.map nodeKey).Nodup ∧
      sharedPrefixNodes.map nodeKey
        = [some (prefixedVertex 0xaa 0xbb 0xcc 1), some (prefixedVertex 0xaa 0xbb 0xcc 2)] ∧
      (sampleDirectory sharedPrefixNodes).keyToAlias (prefixedVertex 0xaa 0xbb 0xcc 1)
        = some [66, 111, 98, 45, 97, 97, 98, 98, 99, 99] ∧
      (sampleDirectory sharedPrefixNodes).aliasToKey [66, 111, 98, 45, 97, 97, 98, 98, 99, 99]
        = some (prefixedVertex 0xaa 0xbb 0xcc 2) ∧
      (setDest (sampleDirectory sharedPrefixNodes)
          [66, 111, 98, 45, 97, 97, 98, 98, 99, 99]).destination
        = some (prefixedVertex 0xaa 0xbb 0xcc 2) ∧
      prefixedVertex 0xaa 0xbb 0xcc 1 ≠ prefixedVertex 0xaa 0xbb 0xcc 2) ∧
    (initAliasMaps (.ok hexNamedNodes) (.ok (sampleVertex 9).String) startState
        = .ok (sampleDirectory hexNamedNodes) ∧
      (hexNamedNodes.map nodeKey).Nodup ∧
      (sampleDirectory hexNamedNodes).keyToAlias (sampleVertex 1)
        = some (sampleVertex 2).String ∧
      (sampleDirectory hexNamedNodes).aliasToKey (sampleVertex 2).String
        = some (sampleVertex 2) ∧
      (setDest (sampleDirectory hexNamedNodes) (sampleVertex 2).String).destination
        = some (sampleVertex 2) ∧
      sampleVertex 1 ≠ sampleVertex 2) :=
  ⟨⟨rfl, by decide, by decide, by decide, by decide, by decide, by decide⟩,
   rfl, by decide, by decide, by decide, by decide, by decide⟩

/-- C13, amended. For a graph whose nodes have pairwise distinct identities, on
which `initAliasMaps` succeeds, and for a node of it with identity `k` whose
display name is neither the display name nor the hex identity of another node:
`keyToAlias[k]` is that display name, `aliasToKey` maps it back to `k`, and
`setDest` on it selects `k`. -/
theorem C13_alias_round_trip (nodes : List LightningNode) (GetInfo : Except GoError Bytes)
    (σ σ' : ChatState) (node : LightningNode) (k : Vertex)
    (hdistinct : (nodes.map nodeKey).Nodup)
    (hinit : initAliasMaps (.ok nodes) GetInfo σ = .ok σ')
    (hnode : node ∈ nodes) (hk : nodeKey node = some k)
    (hunique : ∀ j ∈ nodes, j ≠ node →
      displayAlias (countAliases nodes) j ≠ displayAlias (countAliases nodes) node ∧
        (nodeKey j).map Vertex.String ≠ some (displayAlias (countAliases nodes) node)) :
    σ'.keyToAlias k = some (displayAlias (countAliases nodes) node) ∧
      σ'.aliasToKey (displayAlias (countAliases nodes) node) = some k ∧
      (setDest σ' (displayAlias (countAliases nodes) node)).destination = some k := by
  obtain ⟨σ₁, hloop, hak, hka, _⟩ := initAliasMaps_ok nodes GetInfo σ σ' hinit
  have hback : σ'.aliasToKey (displayAlias (countAliases nodes) node) = some k := by
    rw [hak]
    refine aliasLoop_aliasToKey_display _ _ _ _ hloop node k hnode hk ?_
    intro j hj kj hjk hne
    have hjn : j ≠ node := by
      intro e
      subst e
      rw [hk] at hjk
      cases hjk
      exact hne rfl
    obtain ⟨h1, h2⟩ := hunique j hj hjn
    refine ⟨h1, ?_⟩
    intro e
    apply h2
    rw [hjk, Option.map_some', e]
  refine ⟨?_, hback, setDest_of_entry σ' _ k hback⟩
  rw [hka]
  refine aliasLoop_keyToAlias _ _ _ _ hloop k _ (Or.inr ⟨node, hnode, hk⟩) ?_
  intro j hj hjk
  rw [eq_of_nodeKey_eq nodes hdistinct j node hj hnode (hjk.trans hk.symm)]

theorem C13_alias_round_trip_witness :
    (sampleDirectory bobNodes).keyToAlias (prefixedVertex 0xaa 0xbb 0xcc 1)
        = some (displayAlias (countAliases bobNodes)
            (nodeOf (prefixedVertex 0xaa 0xbb 0xcc 1) bob)) ∧
      (sampleDirectory bobNodes).aliasToKey
          (displayAlias (countAliases bobNodes) (nodeOf (prefixedVertex 0xaa 0xbb 0xcc 1) bob))
        = some (prefixedVertex 0xaa 0xbb 0xcc 1) ∧
      (setDest (sampleDirectory bobNodes)
          (displayAlias (countAliases bobNodes)
            (nodeOf (prefixedVertex 0xaa 0xbb 0xcc 1) bob))).destination
        = some (prefixedVertex 0xaa 0xbb 0xcc 1) :=
  C13_alias_round_trip bobNodes (.ok (sampleVertex 9).String) startState
    (sampleDirectory bobNodes) (nodeOf (prefixedVertex 0xaa 0xbb 0xcc 1) bob)
    (prefixedVertex 0xaa 0xbb 0xcc 1) (by decide) rfl (by decide) (by decide) (by decide)

/-- C14. Evaluation at a graph in which a node publishes the hex identity of
another node as its alias: in `hijackNodes` the node `sampleVertex 1` is named
with the 66 hex characters of `sampleVertex 2`. That string parses as the
identity `sampleVertex 2`, yet `setDest` on it selects `sampleVertex 1`: the
lookup in `aliasToKey` runs after the parse, also when the parse succeeded,
and its entry replaces the parsed identity. -/
theorem C14_alias_entry_overrides_hex_identity :
    initAliasMaps (.ok hijackNodes) (.ok (sampleVertex 9).String) startState
        = .ok (sampleDirectory hijackNodes) ∧
      NewVertexFromStr (sampleVertex 2).String = .ok (sampleVertex 2) ∧
      (sampleDirectory hijackNodes).aliasToKey (sampleVertex 2).String
        = some (sampleVertex 1) ∧
      (setDest (sampleDirectory hijackNodes) (sampleVertex 2).String).destination
        = some (sampleVertex 1) ∧
      sampleVertex 1 ≠ sampleVertex 2 :=
  ⟨rfl, rfl, by decide, by decide, by decide⟩

end Whatsat
